import Mathlib

/-!
Verification development for the graph-rewrite pass engine of the
Compass unified parser.  The data model (multigraph with port-labelled
edges, node operator objects, output-name bookkeeping) and the rewrite
passes are shallowly embedded from
src/UnifiedParser/front_end/onnx/passes/back_passes.py and
src/AIPUBuilder/Parser/front_end/onnx/passes/front_passes.py.
Numeric tensor payloads are modelled with rational scalars; helper
routines that live outside those two files (graph algorithms and the
common-pass utilities) are modelled from the specification and are
marked as such in their doc comments.
-/

namespace Compass

/-- Edge payload describing the data flowing on one edge (value,
constness, dtype, shape, quantization scale/zero-point), following the
TensorMeta description of the data model.  Shapes may contain unknown
dimensions, mirroring dimension entries that are None. -/
structure Tensor where
  value : Option (List ℚ) := none
  shape : Option (List (Option Nat)) := none
  is_const : Bool := false
  dtype : String := ""
  scale_zp : Option (ℚ × List ℚ) := none
deriving DecidableEq, Repr

/-- Attributes attached to one labelled edge: source output port,
destination input port, and the tensor metadata. -/
structure EdgeAttr where
  src_out_port : Nat := 0
  dst_in_port : Nat := 0
  tensor : Tensor := {}
deriving DecidableEq, Repr

/-- One labelled edge of the multigraph; the key disambiguates parallel
edges between the same ordered pair of nodes. -/
structure Edge where
  src : String
  dst : String
  key : Nat := 0
  attr : EdgeAttr := {}
deriving DecidableEq, Repr

/-- The (src, dst, attr) projection of an edge, forgetting the key. -/
def Edge.data (e : Edge) : String × String × EdgeAttr :=
  (e.src, e.dst, e.attr)

/-- Polymorphic operator object attached to a node: the runtime type
tag together with the attribute fields the embedded passes read or
write.  Capability traits are modelled as boolean fields. -/
structure NodeObj where
  type : String := ""
  value : Option (List ℚ) := none
  activations : String := "NONE"
  min : ℚ := 0
  max : ℚ := 0
  perm : List Nat := []
  method : String := ""
  negative_slope : Option (List ℚ) := none
  num_in_ports : Nat := 1
  is_activation : Bool := false
  x_scale : ℚ := 1
  x_zero_point : List ℚ := []
  y_scale : ℚ := 1
  y_zero_point : List ℚ := []
  zp_dtype : String := ""
  quantize : Bool := false
  weights : Option (List ℚ) := none
  biases : Option (List ℚ) := none
deriving DecidableEq, Repr

/-- A node of the graph store: unique string name, the source-format
operator label used by the pattern matcher, and the operator object
(or none for an invalid/uninitialized node). -/
structure NodeEntry where
  name : String
  op : String := ""
  obj : Option NodeObj := none
deriving DecidableEq, Repr

/-- The graph store: nodes, labelled edges, and process-wide graph
attributes (ordered output-name list, quantize flag, framework). -/
structure Graph where
  nodes : List NodeEntry
  edges : List Edge
  output_names : List String := []
  quantize : Bool := false
  framework : String := "ONNX"
deriving DecidableEq, Repr

/-- Whether a node with the given name exists in the graph. -/
def Graph.hasNode (g : Graph) (n : String) : Bool :=
  g.nodes.any (fun x => decide (x.name = n))

/-- The operator object of a node (NodeWrap lookup); none when the node
does not exist or is invalid. -/
def Graph.getObj (g : Graph) (n : String) : Option NodeObj :=
  match g.nodes.find? (fun x => decide (x.name = n)) with
  | some e => e.obj
  | none => none

/-- The operator label of a node, none when the node does not exist. -/
def Graph.getOp (g : Graph) (n : String) : Option String :=
  (g.nodes.find? (fun x => decide (x.name = n))).map (fun e => e.op)

/-- Insertion step for an insertion sort of edges by a numeric key;
an edge is placed before the first strictly greater key, so the sort
is stable like the sorted builtin used by the graph store. -/
def insertEdgeBy (k : Edge → Nat) (e : Edge) : List Edge → List Edge
  | [] => [e]
  | f :: fs => if k e ≤ k f then e :: f :: fs else f :: insertEdgeBy k e fs

/-- Stable insertion sort of edges by a numeric key. -/
def sortEdgesBy (k : Edge → Nat) : List Edge → List Edge
  | [] => []
  | e :: es => insertEdgeBy k e (sortEdgesBy k es)

/-- In-edges of a node ordered by destination input port
(sorted_in_edges of the graph store). -/
def Graph.sorted_in_edges (g : Graph) (n : String) : List Edge :=
  sortEdgesBy (fun e => e.attr.dst_in_port) (g.edges.filter (fun e => decide (e.dst = n)))

/-- Out-edges of a node ordered by source output port
(sorted_out_edges of the graph store). -/
def Graph.sorted_out_edges (g : Graph) (n : String) : List Edge :=
  sortEdgesBy (fun e => e.attr.src_out_port) (g.edges.filter (fun e => decide (e.src = n)))

/-- Input shapes of a node, read off the tensor metadata of its sorted
in-edges (get_input_shapes). -/
def Graph.get_input_shapes (g : Graph) (n : String) : List (Option (List (Option Nat))) :=
  (g.sorted_in_edges n).map (fun e => e.attr.tensor.shape)

/-- Removes the first edge between the given source and destination,
keeping every other edge (remove_edge without a key: a silent no-op
when no such edge exists). -/
def removeFirstSD : List Edge → String → String → List Edge
  | [], _, _ => []
  | e :: es, s, d => if e.src = s ∧ e.dst = d then es else e :: removeFirstSD es s d

/-- remove_edge(src, dst): removes one edge between the pair. -/
def Graph.remove_edge (g : Graph) (s d : String) : Graph :=
  { g with edges := removeFirstSD g.edges s d }

/-- remove_edge(src, dst, key): removes the edge with the given key.
Keys are unique per (src, dst) pair, so filtering removes at most one
edge. -/
def Graph.remove_edge_key (g : Graph) (s d : String) (k : Nat) : Graph :=
  { g with edges := g.edges.filter (fun e => !(decide (e.src = s ∧ e.dst = d ∧ e.key = k))) }

/-- remove_edges_from: iterated removal; removing a nonexistent edge is
a silent no-op. -/
def Graph.remove_edges_from (g : Graph) (l : List Edge) : Graph :=
  l.foldl (fun g e => g.remove_edge e.src e.dst) g

/-- The next free key for a new parallel edge between a pair. -/
def nextKey (l : List Edge) (s d : String) : Nat :=
  (l.filter (fun e => decide (e.src = s ∧ e.dst = d))).foldl (fun m e => Nat.max m (e.key + 1)) 0

/-- Appends a node entry when the name is not present yet (add_edge
creates missing endpoints as uninitialized nodes). -/
def ensureNode (ns : List NodeEntry) (n : String) : List NodeEntry :=
  if ns.any (fun x => decide (x.name = n)) then ns else ns ++ [{ name := n }]

/-- add_edge(src, dst, attrs): inserts a new edge with the next free
key for that pair, creating missing endpoint nodes as uninitialized
nodes. -/
def Graph.add_edge (g : Graph) (s d : String) (a : EdgeAttr) : Graph :=
  { g with nodes := ensureNode (ensureNode g.nodes s) d,
           edges := g.edges ++ [{ src := s, dst := d, key := nextKey g.edges s d, attr := a }] }

/-- remove_node: detaches and deletes the node together with its
incident edges. -/
def Graph.remove_node (g : Graph) (n : String) : Graph :=
  { g with nodes := g.nodes.filter (fun x => !(decide (x.name = n))),
           edges := g.edges.filter (fun e => !(decide (e.src = n)) && !(decide (e.dst = n))) }

/-- replace_obj: atomically swaps the node operator payload for a new
kind built from the given attribute snapshot; the node identity and its
edges are untouched, and the node operator label follows the new
kind. -/
def Graph.replace_obj (g : Graph) (n ty : String) (o : NodeObj) : Graph :=
  { g with nodes := g.nodes.map (fun x =>
      if x.name = n then { x with op := ty, obj := some { o with type := ty } } else x) }

/-- In-place mutation of the operator object attached to a node,
modelling attribute assignments on a live operator object. -/
def Graph.update_obj (g : Graph) (n : String) (f : NodeObj → NodeObj) : Graph :=
  { g with nodes := g.nodes.map (fun x =>
      if x.name = n then { x with obj := x.obj.map f } else x) }

/-- Replaces the first occurrence of a name in a list, the identity
when the name does not occur (the output_names index/assign idiom). -/
def listReplaceFirst : List String → String → String → List String
  | [], _, _ => []
  | x :: xs, old, new => if x = old then new :: xs else x :: listReplaceFirst xs old new

/-- Worker for first-occurrence deduplication, carrying the elements
already seen. -/
def dedupKeepFirstGo {α : Type} [DecidableEq α] (seen : List α) : List α → List α
  | [] => []
  | x :: xs =>
    if seen.contains x then dedupKeepFirstGo seen xs
    else x :: dedupKeepFirstGo (seen ++ [x]) xs

/-- Keeps the first occurrence of every element. -/
def dedupKeepFirst {α : Type} [DecidableEq α] (l : List α) : List α :=
  dedupKeepFirstGo [] l

/-- Distinct output ports in use by a node, read off its out-edges
(get_out_ports). -/
def Graph.get_out_ports (g : Graph) (n : String) : List Nat :=
  ((g.sorted_out_edges n).map (fun e => e.attr.src_out_port)).dedup

/-- Modelled from the spec: get_valid_node_name generates a
collision-free node name from the requested base name (graph_algo is
outside src/). -/
def freshNameGo (g : Graph) (base : String) : Nat → Nat → String
  | 0, _ => base ++ "_overflow"
  | fuel + 1, i =>
    let cand := base ++ "_" ++ toString i
    if g.hasNode cand then freshNameGo g base fuel (i + 1) else cand

/-- Modelled from the spec: get_valid_node_name returns the base name
when free, otherwise a numbered variant that does not collide. -/
def get_valid_node_name (g : Graph) (base : String) : String :=
  if g.hasNode base then freshNameGo g base (g.nodes.length + 1) 0 else base

/-- Modelled from the spec: remove_node_safely (common_passes is
outside src/) removes a node after reconnecting its single input source
to its consumers; a node with one in-edge and no out-edge is simply
removed.  Per the side-effect discipline of the graph store, it does
not repair output_names. -/
def remove_node_safely (g : Graph) (n : String) : Graph :=
  let ie := g.sorted_in_edges n
  let oe := g.sorted_out_edges n
  match ie with
  | [e0] =>
    if oe.length ≥ 1 then
      let g1 := oe.foldl (fun g oeE =>
        g.add_edge e0.src oeE.dst
          { src_out_port := e0.attr.src_out_port,
            dst_in_port := oeE.attr.dst_in_port,
            tensor := e0.attr.tensor }) g
      g1.remove_node n
    else g.remove_node n
  | [] => if oe.length = 0 then g.remove_node n else g
  | _ => g

/-- Modelled from the spec: clear_redundant_nodes (graph_algo is
outside src/) removes every node not reachable backward from
graph.output_names; it does not repair output_names. -/
def ancestorStep (g : Graph) (s : List String) : List String :=
  g.edges.foldl (fun acc e =>
    if acc.contains e.dst ∧ ¬ acc.contains e.src then acc ++ [e.src] else acc) s

/-- Modelled from the spec: the set of nodes backward-reachable from
the output names, computed by saturating the one-step ancestor map. -/
def Graph.ancestors (g : Graph) : List String :=
  Nat.iterate (ancestorStep g) g.nodes.length g.output_names

/-- Modelled from the spec: the mark-and-sweep cleanup invoked by
passes after a successful match. -/
def clear_redundant_nodes (g : Graph) : Graph :=
  let keep := g.ancestors
  { g with nodes := g.nodes.filter (fun x => keep.contains x.name),
           edges := g.edges.filter (fun e => keep.contains e.src && keep.contains e.dst) }

/-- Modelled from the spec: insert_constant (common_passes is outside
src/) creates a fresh Constant node carrying the given value and wires
it into the destination at the given input port. -/
def insert_constant (g : Graph) (base : String) (value : List ℚ) (dst : String) (in_port : Nat) : Graph :=
  let n := get_valid_node_name g base
  let g1 := g.add_edge n dst
    { src_out_port := 0, dst_in_port := in_port,
      tensor := { value := some value, is_const := true } }
  g1.replace_obj n ("Constant") { value := some value }

/-- Moves every out-edge of one node onto another node, transforming
the edge attributes; this is the recurring rewrite loop that removes
each out-edge of the old node and re-adds it from the new node. -/
def moveFoldGo (a b : String) (f : EdgeAttr → EdgeAttr) (g : Graph) (l : List Edge) : Graph :=
  l.foldl (fun g e => (g.remove_edge a e.dst).add_edge b e.dst (f e.attr)) g

/-- The out-edge moving loop applied to the sorted out-edges of the
source node, as the passes write it. -/
def moveOutEdges (g : Graph) (a b : String) (f : EdgeAttr → EdgeAttr) : Graph :=
  moveFoldGo a b f g (g.sorted_out_edges a)

/-- single_node_matcher: all nodes whose operator label equals the
requested type, in graph order. -/
def single_node_matcher (g : Graph) (ty : String) : List String :=
  (g.nodes.filter (fun x => decide (x.op = ty))).map (fun x => x.name)

/-- Two-role pattern matches for an edge between a source role with one
type and a destination role drawn from a type list: every edge whose
endpoint labels satisfy the role predicates yields the role binding,
deduplicated in first-occurrence order. -/
def matchEdgePairs (g : Graph) (srcTy : String) (dstTys : List String) : List (String × String) :=
  dedupKeepFirst (g.edges.filterMap (fun e =>
    if g.getOp e.src = some srcTy ∧ (∃ t ∈ dstTys, g.getOp e.dst = some t) ∧ e.src ≠ e.dst
    then some (e.src, e.dst) else none))

/-- Processing of one Sqrt/Reciprocal match in merge_rsqrt
(back_passes.py): when both operator objects are valid and the Sqrt
node has exactly one out-edge, every out-edge of the Reciprocal node is
moved onto the Sqrt node, the Sqrt node is replaced in place by an
ArmRsqrt built from its copied attributes, the Reciprocal node is
removed, and an occurrence of the Reciprocal in output_names is
replaced by the fused node. -/
def merge_rsqrt_step (g : Graph) (m : String × String) : Graph :=
  let sq := m.1
  let rcp := m.2
  match g.getObj sq, g.getObj rcp with
  | some sqObj, some _ =>
    if (g.sorted_out_edges sq).length = 1 then
      let g1 := moveOutEdges g rcp sq id
      let g2 := g1.replace_obj sq ("ArmRsqrt") sqObj
      let g3 := remove_node_safely g2 rcp
      if rcp ∈ g3.output_names then
        { g3 with output_names := listReplaceFirst g3.output_names rcp sq }
      else g3
    else g
  | _, _ => g

/-- merge_rsqrt (back_passes.py): folds the Sqrt-to-Reciprocal pattern
matches through the per-match rewrite. -/
def merge_rsqrt (g : Graph) : Graph :=
  (matchEdgePairs g ("Sqrt") [("Reciprocal")]).foldl merge_rsqrt_step g

/-- Processing of one Mul match in merge_square2 (back_passes.py): an
invalid node or an input-shape count other than two is skipped with a
diagnostic; when both in-edges come from the same source output port,
the second in-edge is removed by key and the node operator payload is
replaced in place by ArmSquare, recording a successful match. -/
def merge_square2_step (gm : Graph × Bool) (mul : String) : Graph × Bool :=
  let g := gm.1
  let matched := gm.2
  match g.getObj mul with
  | none => (g, matched)
  | some _ =>
    if (g.get_input_shapes mul).length ≠ 2 then (g, matched)
    else
      match g.sorted_in_edges mul with
      | e1 :: e2 :: _ =>
        if e1.src ≠ e2.src ∨ e1.attr.src_out_port ≠ e2.attr.src_out_port then (g, matched)
        else
          (((g.remove_edge_key e2.src mul e2.key).replace_obj mul ("ArmSquare") {}), true)
      | _ => (g, matched)

/-- merge_square2 (back_passes.py): folds all Mul matches through the
per-match rewrite and runs the redundant-node cleanup once when any
match succeeded. -/
def merge_square2 (g : Graph) : Graph :=
  let r := (single_node_matcher g ("Mul")).foldl merge_square2_step (g, false)
  if r.2 then clear_redundant_nodes r.1 else r.1

/-- The inverse-permutation index list computed by the transpose
passes. -/
def permIndexList (perm : List Nat) : List Nat :=
  (List.range perm.length).map (fun i => perm.indexOf i)

/-- Product of known dimension entries of a shape; a None entry makes
the product unavailable, mirroring a numpy failure on an unknown
dimension. -/
def shapeProd : List (Option Nat) → Option Nat
  | [] => some 1
  | none :: _ => none
  | some d :: rest => (shapeProd rest).map (fun p => d * p)

/-- Processing of one ArmPow match in adjust_pow (back_passes.py).  A
missing operator object on the Pow node itself is reported and
skipped; however, when the guard reaches the exponent input, the pass
reads the type attribute of that node operator object without a None
check, which is modelled as a raised exception.  On the success path
the scalar exponent constant is tiled to the main input shape and the
second in-edge tensor is rebuilt as a constant. -/
def adjust_pow_step (g : Graph) (pw : String) : Except String Graph :=
  match g.getObj pw with
  | none => .ok g
  | some _ =>
    let input_shapes := g.get_input_shapes pw
    let in_edges := g.sorted_in_edges pw
    if input_shapes.length = 2 then
      match input_shapes.get? 1 with
      | none => .ok g
      | some none => .error ("TypeError: object of type NoneType has no len")
      | some (some shp1) =>
        if shp1.length = 0 ∨ (shp1.length = 1 ∧ shp1.get? 0 = some (some 1)) then
          if in_edges.length = 2 then
            match in_edges.get? 1 with
            | none => .ok g
            | some e2 =>
              match g.getObj e2.src with
              | none => .error ("AttributeError: NoneType object has no attribute type")
              | some expObj =>
                if (expObj.type = "Constant" ∨ expObj.type = "ArmConstant") ∧ expObj.value ≠ none then
                  match input_shapes.get? 0 with
                  | none => .ok g
                  | some none => .error ("TypeError: len of NoneType")
                  | some (some mainShape) =>
                    match shapeProd mainShape with
                    | none => .error ("TypeError: cannot tile to unknown shape")
                    | some total =>
                      let tiled := List.replicate total ((expObj.value.getD []).headD 0)
                      let g1 := g.update_obj e2.src (fun o => { o with value := some tiled })
                      let g2 := { g1 with edges := g1.edges.map (fun e =>
                        if e.src = e2.src ∧ e.dst = pw ∧ e.key = e2.key then
                          { e with attr := { e.attr with tensor :=
                            { value := some tiled, shape := some (mainShape), is_const := true } } }
                        else e) }
                      .ok g2
                else .ok g
          else .ok g
        else .ok g
    else .ok g

/-- adjust_pow (back_passes.py): monadic fold over the ArmPow matches;
an exception raised while processing one match aborts the pass. -/
def adjust_pow (g : Graph) : Except String Graph :=
  (single_node_matcher g ("ArmPow")).foldlM adjust_pow_step g

/-- A fuse_relu match: the activation-capable node, the relu-like node,
and the optional intervening ArmTranspose node. -/
structure FuseReluMatch where
  linear : String
  relu : String
  transpose : Option String
deriving DecidableEq, Repr

/-- Processing of one match in fuse_relu (back_passes.py).  The match
is skipped when an operator object is missing, the leading operator is
not activation-capable or already carries an activation, or the
single-consumer conditions fail.  A Clip or ArmClip follower fuses only
when its min is float-equal to 0 and its max float-equal to 6, setting
the activations attribute to RELU6; any other clip bounds skip the
match with no mutation.  Without an intervening transpose the fused
relu node is removed by remove_node_safely; with one, the relu
out-edges are moved onto the transpose and output_names is updated. -/
def fuse_relu_step (feq : ℚ → ℚ → Bool) (g : Graph) (m : FuseReluMatch) : Graph :=
  match g.getObj m.linear, g.getObj m.relu with
  | some linObj, some reluObj =>
    let transBad : Bool :=
      match m.transpose with
      | none => false
      | some t => decide (g.getObj t = none) || decide ((g.sorted_out_edges t).length ≠ 1)
    if ¬ linObj.is_activation ∨ linObj.activations ≠ "NONE"
        ∨ (g.sorted_out_edges m.linear).length ≠ 1 ∨ transBad then g
    else
      let reluAttr := reluObj
      let proceed : Option NodeObj :=
        if reluObj.type = "Clip" ∨ reluObj.type = "ArmClip" then
          if feq reluObj.min 0 ∧ feq reluObj.max 6 then
            some { reluAttr with activations := "RELU6" }
          else none
        else some reluAttr
      match proceed with
      | none => g
      | some attr =>
        let g1 := g.update_obj m.linear (fun o => { o with activations := attr.activations })
        match m.transpose with
        | none => remove_node_safely g1 m.relu
        | some t =>
          let g2 := g1.remove_edge t m.relu
          let g3 := moveOutEdges g2 m.relu t id
          if m.relu ∈ g3.output_names then
            { g3 with output_names := listReplaceFirst g3.output_names m.relu t }
          else g3
  | _, _ => g

/-- The direct linear-to-relu matches of one fuse_relu type
combination. -/
def fuseReluMatches1 (g : Graph) (ot rt : String) : List FuseReluMatch :=
  (dedupKeepFirst (g.edges.filterMap (fun e =>
    if g.getOp e.src = some ot ∧ g.getOp e.dst = some rt ∧ e.src ≠ e.dst
    then some (e.src, e.dst) else none))).map
    (fun p => { linear := p.1, relu := p.2, transpose := none })

/-- The linear-to-transpose-to-relu matches of one fuse_relu type
combination. -/
def fuseReluMatches2 (g : Graph) (ot rt : String) : List FuseReluMatch :=
  g.edges.flatMap (fun e1 =>
    if g.getOp e1.src = some ot ∧ g.getOp e1.dst = some ("ArmTranspose") ∧ e1.src ≠ e1.dst then
      (dedupKeepFirst (g.edges.filterMap (fun e2 =>
        if e2.src = e1.dst ∧ g.getOp e2.dst = some rt ∧ e2.dst ≠ e2.src ∧ e2.dst ≠ e1.src
        then some (e1.src, e2.dst) else none))).map
        (fun p => { linear := p.1, relu := p.2, transpose := some e1.dst })
    else [])

/-- fuse_relu (back_passes.py): the operator registry sets that drive
the itertools product of type combinations live in the external ops
library, so they are parameters; each combination enumerates its
matches on the current graph and folds them through the per-match
rewrite, and the pass always ends with the redundant-node cleanup. -/
def fuse_relu (feq : ℚ → ℚ → Bool) (opsHasRelu reluOps : List String) (g : Graph) : Graph :=
  let g1 := (opsHasRelu.flatMap (fun ot => reluOps.map (fun rt => (ot, rt)))).foldl
    (fun g c => (fuseReluMatches1 g c.1 c.2 ++ fuseReluMatches2 g c.1 c.2).foldl
      (fuse_relu_step feq) g) g
  clear_redundant_nodes g1

/-- Processing of one ArmTranspose-to-unaware match in
sink_single_transpose (back_passes.py).  The numeric transpose of a
materialized tensor value is an external kernel, passed in as the vt
parameter.  When the transpose has a single out-edge and the unaware
operator has one input port, one output port in use and a fully known
input shape, the transpose is moved past the operator: the transpose
former source feeds the operator directly at the port the transpose
used, the operator feeds the transpose on ports 0/0, every former
consumer of the operator consumes the transpose, a PRELU slope is
permuted accordingly, and output_names is updated. -/
def sink_single_transpose_step (vt : List Nat → List ℚ → List ℚ) (g : Graph) (m : String × String) : Graph :=
  let t := m.1
  let u := m.2
  match g.getObj t, g.getObj u with
  | some tObj, some uObj =>
    let trans_out_edges := g.sorted_out_edges t
    if trans_out_edges.length = 1 ∧ uObj.num_in_ports = 1 ∧ (g.get_out_ports u).length = 1 then
      match (g.get_input_shapes u).get? 0 with
      | none => g
      | some none => g
      | some (some dims) =>
        if dims.any (fun s => decide (s = none)) then g
        else
          match g.sorted_in_edges t, trans_out_edges with
          | tin0 :: _, [etu] =>
            let src := tin0.src
            let g1 := g.remove_edge src t
            let g2 := g1.remove_edges_from trans_out_edges
            let uouts := g2.sorted_out_edges u
            let unaware_out_tensor := uouts.foldl (fun acc e =>
              match e.attr.tensor.value with
              | some v => some (vt (permIndexList tObj.perm) v)
              | none => acc) none
            let g3 := moveOutEdges g2 u t (fun a => { a with src_out_port := 0 })
            let g4 := g3.add_edge src u { tin0.attr with dst_in_port := etu.attr.dst_in_port }
            let g5 := g4.add_edge u t
              { src_out_port := 0, dst_in_port := 0, tensor := { value := unaware_out_tensor } }
            let g6 :=
              if uObj.type = "ArmActivation" ∧ uObj.method = "PRELU" then
                g5.update_obj u (fun o =>
                  { o with negative_slope := o.negative_slope.map (vt (permIndexList tObj.perm)) })
              else g5
            if u ∈ g6.output_names then
              { g6 with output_names := listReplaceFirst g6.output_names u t }
            else g6
          | _, _ => g
    else g
  | _, _ => g

/-- sink_single_transpose (back_passes.py): the layout-unaware type
registry is external, so it is a parameter; the ArmTranspose-to-unaware
pattern matches are folded through the per-match rewrite. -/
def sink_single_transpose (vt : List Nat → List ℚ → List ℚ) (unawareTypes : List String) (g : Graph) : Graph :=
  (matchEdgePairs g ("ArmTranspose") unawareTypes).foldl (sink_single_transpose_step vt) g

/-- The iteration count of the layout-cleanup loop in back_passes
(back_passes.py): min(max(len(graph) // 15, 15), 20), computed from
the node count before the loop starts. -/
def iter_times (graph_len : Nat) : Nat :=
  Nat.min (Nat.max (graph_len / 15) 15) 20

/-- The layout-cleanup fixpoint loop of back_passes (back_passes.py):
only for the ONNX and CAFFE frameworks, the combined sink/cleanup body
(one loop iteration, passed as the step parameter) is executed exactly
iter_times times regardless of whether transforms keep matching. -/
def layout_cleanup_loop (step : Graph → Graph) (g : Graph) : Graph :=
  if g.framework = "ONNX" ∨ g.framework = "CAFFE" then
    Nat.iterate step (iter_times g.nodes.length) g
  else g

/-- Lookup in the flat string-keyed options map with a numeric
default, modelling params.get(key, default) followed by int(). -/
def params_get (params : List (String × Int)) (k : String) (d : Int) : Int :=
  match params.find? (fun p => decide (p.1 = k)) with
  | some p => p.2
  | none => d

/-- The image width used by the SSD branch of detection_post_process
(back_passes.py line 3081): the image_width option with default 300. -/
def detection_pp_ssd_image_width (params : List (String × Int)) : Int :=
  params_get params ("image_width") 300

/-- The image height used by the SSD branch of detection_post_process
(back_passes.py line 3082): the source reads the image_width option
key with default 300. -/
def detection_pp_ssd_image_height (params : List (String × Int)) : Int :=
  params_get params ("image_width") 300

/-- The image height given to the NMS operator by the YOLO2 branch of
detection_post_process (back_passes.py line 3239): the source reads
the image_width option key with default 416. -/
def detection_pp_yolo2_nms_image_height (params : List (String × Int)) : Int :=
  params_get params ("image_width") 416

/-- A merge_qconv match: the three dequantize nodes, the convolution,
the quantize node, and the optional intervening Relu. -/
structure QConvMatch where
  x_dequant : String
  w_dequant : String
  b_dequant : String
  conv : String
  y_quant : String
  relu : Option String
deriving DecidableEq, Repr

/-- Whether a dequantize/quantize node has an in-edge count other than
two or three. -/
def inCountBad (g : Graph) (n : String) : Bool :=
  !((g.sorted_in_edges n).length == 2 || (g.sorted_in_edges n).length == 3)

/-- Whether some checked operand edge of a dequantize/quantize node has
no materialized value or is not constant; the scale/zero-point operands
are the in-edges past the first one, and for the weight and bias
dequantize nodes the whole edge list is checked. -/
def scaleZpBad (g : Graph) (n : String) (dropFirst : Bool) : Bool :=
  let ie := g.sorted_in_edges n
  let l := if dropFirst then ie.drop 1 else ie
  l.any (fun e => decide (e.attr.tensor.value = none)) ||
    l.any (fun e => !e.attr.tensor.is_const)

/-- Whether the bias dequantize quantization is inconsistent: the bias
scale is not float-equal to the product of weight and input scales, or
the bias zero-point is nonzero. -/
def qconv_bias_quant_bad (feq : ℚ → ℚ → Bool) (g : Graph) (m : QConvMatch) : Bool :=
  match g.getObj m.x_dequant, g.getObj m.w_dequant, g.getObj m.b_dequant with
  | some xo, some wo, some bo =>
    !(feq (wo.x_scale * xo.x_scale) bo.x_scale) ||
      !(bo.x_zero_point.all (fun z => decide (z = 0)))
  | _, _, _ => true

/-- Processing of one match in merge_qconv (front_passes.py): the
validation chain runs before any mutation, and each failed precondition
abandons the match with the graph exactly as it was; only after all
preconditions hold are the edges rewired, the quantization metadata
propagated, the operand constants inserted and the convolution payload
replaced by its quantized kind. -/
def merge_qconv_process (feq : ℚ → ℚ → Bool) (gm : Graph × Bool) (m : QConvMatch) : Graph × Bool :=
  let g := gm.1
  let matched := gm.2
  match g.getObj m.x_dequant, g.getObj m.w_dequant, g.getObj m.b_dequant,
        g.getObj m.conv, g.getObj m.y_quant with
  | some xo, some wo, some bo, some co, some yo =>
    let reluObjBad : Bool :=
      match m.relu with
      | none => false
      | some r => decide (g.getObj r = none)
    if reluObjBad then (g, matched)
    else if inCountBad g m.x_dequant then (g, matched)
    else if scaleZpBad g m.x_dequant true then (g, matched)
    else if inCountBad g m.w_dequant then (g, matched)
    else if scaleZpBad g m.w_dequant false then (g, matched)
    else if inCountBad g m.b_dequant then (g, matched)
    else if scaleZpBad g m.b_dequant false then (g, matched)
    else if (g.sorted_out_edges m.conv).length ≠ 1 then (g, matched)
    else if (match m.relu with
             | none => false
             | some r => decide ((g.sorted_out_edges r).length ≠ 1)) then (g, matched)
    else if inCountBad g m.y_quant then (g, matched)
    else if scaleZpBad g m.y_quant true then (g, matched)
    else if qconv_bias_quant_bad feq g m then (g, matched)
    else
      match g.sorted_in_edges m.x_dequant, g.sorted_out_edges m.conv with
      | xe0 :: _, [convOut] =>
        let weights := ((g.sorted_in_edges m.w_dequant).headD { src := "", dst := "" }).attr.tensor.value.getD []
        let biases := ((g.sorted_in_edges m.b_dequant).headD { src := "", dst := "" }).attr.tensor.value.getD []
        let src := xe0.src
        let new_in_attr := { xe0.attr with tensor :=
          { xe0.attr.tensor with dtype := xo.zp_dtype,
                                 scale_zp := some (xo.x_scale, xo.x_zero_point) } }
        let g1 := g.remove_edges_from (g.sorted_in_edges m.conv ++ [convOut])
        let g2 := g1.add_edge src m.conv new_in_attr
        let finish := fun (gN : Graph) (last : String) =>
          let g5 := moveOutEdges gN m.y_quant last (fun a =>
            { a with tensor := { a.tensor with dtype := yo.zp_dtype,
                                               scale_zp := some (yo.y_scale, yo.y_zero_point) } })
          let g6 :=
            if m.y_quant ∈ g5.output_names then
              { g5 with output_names := listReplaceFirst g5.output_names m.y_quant last }
            else g5
          if co.type = "Conv" then
            let g7 := insert_constant g6 (m.conv ++ "_x_scale") [xo.x_scale] m.conv 1
            let g8 := insert_constant g7 (m.conv ++ "_x_zero_point") xo.x_zero_point m.conv 2
            let g9 := insert_constant g8 (m.conv ++ "_w") weights m.conv 3
            let g10 := insert_constant g9 (m.conv ++ "_w_scale") [wo.x_scale] m.conv 4
            let g11 := insert_constant g10 (m.conv ++ "_w_zero_point") wo.x_zero_point m.conv 5
            let g12 := insert_constant g11 (m.conv ++ "_y_scale") [yo.y_scale] m.conv 6
            let g13 := insert_constant g12 (m.conv ++ "_y_zero_point") yo.y_zero_point m.conv 7
            let g14 := insert_constant g13 (m.conv ++ "_B") biases m.conv 8
            (g14.replace_obj m.conv ("QLinearConv") co, true)
          else
            (g6.replace_obj m.conv ("ConvTranspose")
              { co with weights := some weights, biases := some biases }, true)
        match m.relu with
        | some r =>
          let g3 := g2.remove_edges_from (g2.sorted_out_edges r)
          let conv_out_attr := { convOut.attr with tensor :=
            { convOut.attr.tensor with dtype := yo.zp_dtype,
                                       scale_zp := some (yo.y_scale, yo.y_zero_point) } }
          let g4 := g3.add_edge m.conv r conv_out_attr
          finish g4 r
        | none => finish g2 m.conv
      | _, _ => (g, matched)
  | _, _, _, _, _ => (g, matched)

/-- The failing-precondition predicate of the rsqrt-style validation in
merge_qconv, exactly the conditions the claim enumerates: an unexpected
in-edge count on a dequantize/quantize node, a scale or zero-point
operand without a value or not constant, more than one consumer of the
convolution, a bias scale not float-equal to the product of input and
weight scales, or a nonzero bias zero-point. -/
def merge_qconv_precond_fails (feq : ℚ → ℚ → Bool) (g : Graph) (m : QConvMatch) : Bool :=
  inCountBad g m.x_dequant || scaleZpBad g m.x_dequant true ||
  inCountBad g m.w_dequant || scaleZpBad g m.w_dequant false ||
  inCountBad g m.b_dequant || scaleZpBad g m.b_dequant false ||
  decide ((g.sorted_out_edges m.conv).length ≠ 1) ||
  inCountBad g m.y_quant || scaleZpBad g m.y_quant true ||
  qconv_bias_quant_bad feq g m

/-- The relu-free merge_qconv matches: role assignments of the
five-node dequantize/convolution/quantize pattern with the declared
port constraints, distinct roles, in graph order. -/
def qconvMatchesPlain (g : Graph) : List QConvMatch :=
  dedupKeepFirst (g.nodes.flatMap (fun c =>
    if c.op = "Conv" ∨ c.op = "ConvTranspose" then
      (g.edges.filter (fun e => decide (e.dst = c.name ∧ g.getOp e.src = some "DequantizeLinear"))).flatMap (fun ex =>
      (g.edges.filter (fun e => decide (e.dst = c.name ∧ e.attr.dst_in_port = 1 ∧ g.getOp e.src = some "DequantizeLinear"))).flatMap (fun ew =>
      (g.edges.filter (fun e => decide (e.dst = c.name ∧ e.attr.dst_in_port = 2 ∧ g.getOp e.src = some "DequantizeLinear"))).flatMap (fun eb =>
      (g.edges.filter (fun e => decide (e.src = c.name ∧ g.getOp e.dst = some "QuantizeLinear"))).filterMap (fun ey =>
        if ([ex.src, ew.src, eb.src, c.name, ey.dst] : List String).Nodup then
          some { x_dequant := ex.src, w_dequant := ew.src, b_dequant := eb.src,
                 conv := c.name, y_quant := ey.dst, relu := none }
        else none))))
    else []))

/-- The merge_qconv matches with an intervening Relu between the Conv
and the quantize node. -/
def qconvMatchesRelu (g : Graph) : List QConvMatch :=
  dedupKeepFirst (g.nodes.flatMap (fun c =>
    if c.op = "Conv" then
      (g.edges.filter (fun e => decide (e.dst = c.name ∧ g.getOp e.src = some "DequantizeLinear"))).flatMap (fun ex =>
      (g.edges.filter (fun e => decide (e.dst = c.name ∧ e.attr.dst_in_port = 1 ∧ g.getOp e.src = some "DequantizeLinear"))).flatMap (fun ew =>
      (g.edges.filter (fun e => decide (e.dst = c.name ∧ e.attr.dst_in_port = 2 ∧ g.getOp e.src = some "DequantizeLinear"))).flatMap (fun eb =>
      (g.edges.filter (fun e => decide (e.src = c.name ∧ g.getOp e.dst = some "Relu"))).flatMap (fun er =>
      (g.edges.filter (fun e => decide (e.src = er.dst ∧ g.getOp e.dst = some "QuantizeLinear"))).filterMap (fun ey =>
        if ([ex.src, ew.src, eb.src, c.name, er.dst, ey.dst] : List String).Nodup then
          some { x_dequant := ex.src, w_dequant := ew.src, b_dequant := eb.src,
                 conv := c.name, y_quant := ey.dst, relu := some er.dst }
        else none)))))
    else []))

/-- merge_qconv (front_passes.py): returns immediately on a falsy
quantize graph attribute; otherwise folds the plain and relu matches
through the per-match rewrite and cleans up once when any match
succeeded. -/
def merge_qconv (feq : ℚ → ℚ → Bool) (g : Graph) : Graph :=
  if ¬ g.quantize then g
  else
    let r := (qconvMatchesPlain g ++ qconvMatchesRelu g).foldl (merge_qconv_process feq) (g, false)
    if r.2 then clear_redundant_nodes r.1 else r.1

/-- A merge_qmatmul match. -/
structure QMatMulMatch where
  a_dequant : String
  b_dequant : String
  matmul : String
  y_quant : String
deriving DecidableEq, Repr

/-- Whether some checked operand edge has no materialized value (the
qmatmul variant checks values only, not constness). -/
def valueMissingBad (g : Graph) (n : String) : Bool :=
  ((g.sorted_in_edges n).drop 1).any (fun e => decide (e.attr.tensor.value = none))

/-- Processing of one match in merge_qmatmul (front_passes.py). -/
def merge_qmatmul_process (g : Graph) (matched : Bool) (m : QMatMulMatch) : Graph × Bool :=
  match g.getObj m.a_dequant, g.getObj m.b_dequant, g.getObj m.matmul, g.getObj m.y_quant with
  | some ao, some bo, some mo, some yo =>
    if inCountBad g m.a_dequant then (g, matched)
    else if valueMissingBad g m.a_dequant then (g, matched)
    else if inCountBad g m.b_dequant then (g, matched)
    else if valueMissingBad g m.b_dequant then (g, matched)
    else if (g.sorted_out_edges m.matmul).length ≠ 1 then (g, matched)
    else if inCountBad g m.y_quant then (g, matched)
    else if valueMissingBad g m.y_quant then (g, matched)
    else
      let a_in := g.sorted_in_edges m.a_dequant
      let b_in := g.sorted_in_edges m.b_dequant
      let y_in := g.sorted_in_edges m.y_quant
      let g1 := g.remove_edges_from (g.sorted_in_edges m.matmul)
      let g2 := a_in.foldl (fun g e => g.add_edge e.src m.matmul e.attr) g1
      let g3 := if a_in.length = 2 then
          insert_constant g2 (m.matmul ++ "_a_zero_point") ao.x_zero_point m.matmul 2
        else g2
      let g4 := b_in.foldl (fun g e =>
        g.add_edge e.src m.matmul { e.attr with dst_in_port := e.attr.dst_in_port + 3 }) g3
      let g5 := if b_in.length = 2 then
          insert_constant g4 (m.matmul ++ "_b_zero_point") bo.x_zero_point m.matmul 5
        else g4
      let g6 := (y_in.drop 1).foldl (fun g e =>
        g.add_edge e.src m.matmul { e.attr with dst_in_port := e.attr.dst_in_port + 5 }) g5
      let g7 := if y_in.length = 2 then
          insert_constant g6 (m.matmul ++ "_y_zero_point") yo.y_zero_point m.matmul 7
        else g6
      let g8 := g7.remove_edge m.matmul m.y_quant
      let g9 := moveOutEdges g8 m.y_quant m.matmul id
      let g10 :=
        if m.y_quant ∈ g9.output_names then
          { g9 with output_names := listReplaceFirst g9.output_names m.y_quant m.matmul }
        else g9
      (g10.replace_obj m.matmul ("QLinearMatMul") { mo with quantize := true }, true)
  | _, _, _, _ => (g, matched)

/-- The merge_qmatmul matches of the four-node pattern. -/
def qmatmulMatches (g : Graph) : List QMatMulMatch :=
  dedupKeepFirst (g.nodes.flatMap (fun c =>
    if c.op = "MatMul" then
      (g.edges.filter (fun e => decide (e.dst = c.name ∧ g.getOp e.src = some "DequantizeLinear"))).flatMap (fun ea =>
      (g.edges.filter (fun e => decide (e.dst = c.name ∧ e.attr.dst_in_port = 1 ∧ g.getOp e.src = some "DequantizeLinear"))).flatMap (fun eb =>
      (g.edges.filter (fun e => decide (e.src = c.name ∧ g.getOp e.dst = some "QuantizeLinear"))).filterMap (fun ey =>
        if ([ea.src, eb.src, c.name, ey.dst] : List String).Nodup then
          some { a_dequant := ea.src, b_dequant := eb.src, matmul := c.name, y_quant := ey.dst }
        else none)))
    else []))

/-- merge_qmatmul (front_passes.py): returns immediately on a falsy
quantize graph attribute. -/
def merge_qmatmul (g : Graph) : Graph :=
  if ¬ g.quantize then g
  else
    let r := (qmatmulMatches g).foldl (fun p m => merge_qmatmul_process p.1 p.2 m) (g, false)
    if r.2 then clear_redundant_nodes r.1 else r.1

/-- Processing of one match in merge_q_multiple (front_passes.py): a
float operator all of whose inputs are dequantize nodes, followed by a
quantize node, is turned into its quantized form in place. -/
def merge_q_multiple_process (g : Graph) (matched : Bool) (m : String × String) : Graph × Bool :=
  let fl := m.1
  let qu := m.2
  let in_edges := g.sorted_in_edges fl
  if in_edges.length < 1 then (g, matched)
  else if (g.sorted_out_edges fl).length ≠ 1 then (g, matched)
  else
    let op_in_names := in_edges.map (fun e => e.src)
    if (op_in_names.any (fun n => decide (g.getObj n = none)))
        || decide (g.getObj fl = none) || decide (g.getObj qu = none) then (g, matched)
    else if op_in_names.any (fun n => decide ((g.getObj n).map (fun o => o.type) ≠ some "DequantizeLinear")) then (g, matched)
    else if op_in_names.any (fun n => inCountBad g n || scaleZpBad g n true) then (g, matched)
    else if inCountBad g qu then (g, matched)
    else if scaleZpBad g qu true then (g, matched)
    else
      let g1 := g.remove_edges_from in_edges
      let g2 := g1.remove_edge fl qu
      let g3 := (op_in_names.enum).foldl (fun g p =>
        match g.sorted_in_edges p.2 with
        | e0 :: _ =>
          let dqo := (g.getObj p.2).getD {}
          g.add_edge e0.src fl
            { e0.attr with dst_in_port := p.1,
                           tensor := { e0.attr.tensor with dtype := dqo.zp_dtype,
                                                           scale_zp := some (dqo.x_scale, dqo.x_zero_point) } }
        | [] => g) g2
      let quo := (g.getObj qu).getD {}
      let g4 := moveOutEdges g3 qu fl (fun a =>
        { a with tensor := { a.tensor with dtype := quo.zp_dtype,
                                           scale_zp := some (quo.y_scale, quo.y_zero_point) } })
      let g5 :=
        if qu ∈ g4.output_names then
          { g4 with output_names := listReplaceFirst g4.output_names qu fl }
        else g4
      (g5.update_obj fl (fun o => { o with quantize := true }), true)

/-- merge_q_multiple (front_passes.py): returns immediately on a falsy
quantize graph attribute or an empty operator type list. -/
def merge_q_multiple (g : Graph) (op_list : List String) : Graph :=
  if ¬ g.quantize then g
  else if op_list = [] then g
  else
    let ms := g.nodes.flatMap (fun c =>
      if op_list.contains c.op then
        dedupKeepFirst ((g.edges.filter (fun e =>
          decide (e.src = c.name ∧ g.getOp e.dst = some "QuantizeLinear" ∧ e.dst ≠ e.src))).map
          (fun e => (c.name, e.dst)))
      else [])
    let r := ms.foldl (fun p m => merge_q_multiple_process p.1 p.2 m) (g, false)
    if r.2 then clear_redundant_nodes r.1 else r.1

/-- Integer range lower bound of a quantized dtype (numpy iinfo). -/
def iinfo_lo (dt : String) : ℚ :=
  if dt = "int8" then -128
  else if dt = "uint8" then 0
  else if dt = "int16" then -32768
  else if dt = "uint16" then 0
  else if dt = "int32" then -(2 ^ 31)
  else 0

/-- Integer range upper bound of a quantized dtype (numpy iinfo). -/
def iinfo_hi (dt : String) : ℚ :=
  if dt = "int8" then 127
  else if dt = "uint8" then 255
  else if dt = "int16" then 32767
  else if dt = "uint16" then 65535
  else if dt = "int32" then 2 ^ 31 - 1
  else 0

/-- numpy clip of a scalar into an interval. -/
def qclip (x lo hi : ℚ) : ℚ := Min.min (Max.max x lo) hi

/-- Truncation toward zero, modelling an integer astype. -/
def ratTrunc (q : ℚ) : ℚ := ((Int.tdiv q.num (q.den : Int) : Int) : ℚ)

/-- Processing of one match in merge_q_unary (front_passes.py),
including the special requantization of constant Clip bounds. -/
def merge_q_unary_process (g : Graph) (matched : Bool) (m : String × String × String) : Graph × Bool :=
  let dq := m.1
  let fl := m.2.1
  let qu := m.2.2
  match g.getObj dq, g.getObj fl, g.getObj qu with
  | some dqo, some flo, some quo =>
    if inCountBad g dq then (g, matched)
    else if scaleZpBad g dq true then (g, matched)
    else if (g.sorted_in_edges fl).length < 1 then (g, matched)
    else if (g.sorted_out_edges fl).length ≠ 1 then (g, matched)
    else if inCountBad g qu then (g, matched)
    else if scaleZpBad g qu true then (g, matched)
    else
      let op_in_edges := g.sorted_in_edges fl
      if flo.type = "Clip" ∧ ¬ (op_in_edges.length = 3
          ∧ (op_in_edges.drop 1).all (fun e => e.attr.tensor.is_const)) then (g, matched)
      else
        let x_scale := dqo.x_scale
        let x_zp := dqo.x_zero_point
        let y_zp_dtype :=
          if (flo.type = "Sigmoid" ∨ flo.type = "LeakyRelu" ∨ flo.type = "HardSwish"
              ∨ flo.type = "HardSigmoid" ∨ flo.type = "Relu") ∧ quo.zp_dtype = "int32"
          then "int16" else quo.zp_dtype
        let gA :=
          if flo.type = "Clip" then
            let g1 := g.remove_edges_from (op_in_edges.drop 1)
            let clip_min := (((op_in_edges.get? 1).map (fun e => e.attr.tensor.value)).join.getD []).headD 0
            let clip_max := (((op_in_edges.get? 2).map (fun e => e.attr.tensor.value)).join.getD []).headD 0
            let q_lo := iinfo_lo dqo.zp_dtype
            let q_hi := iinfo_hi dqo.zp_dtype
            let zp0 := x_zp.headD 0
            let q_clip_min := ratTrunc (qclip (clip_min / x_scale + zp0) q_lo q_hi)
            let q_clip_max := ratTrunc (qclip (clip_max / x_scale + zp0) q_lo q_hi)
            let g2 := insert_constant g1 (fl ++ "_q_clip_min") [q_clip_min] fl 1
            insert_constant g2 (fl ++ "_q_clip_max") [q_clip_max] fl 2
          else g
        match gA.sorted_in_edges dq with
        | de0 :: _ =>
          let new_in_attr := { de0.attr with tensor :=
            { de0.attr.tensor with dtype := dqo.zp_dtype,
                                   scale_zp := some (x_scale, x_zp) } }
          let g3 := gA.remove_edges_from ((gA.sorted_in_edges fl).take 1)
          let g4 := g3.remove_edge fl qu
          let g5 := g4.add_edge de0.src fl new_in_attr
          let g6 := moveOutEdges g5 qu fl (fun a =>
            { a with tensor := { a.tensor with dtype := y_zp_dtype,
                                               scale_zp := some (quo.y_scale, quo.y_zero_point) } })
          let g7 :=
            if qu ∈ g6.output_names then
              { g6 with output_names := listReplaceFirst g6.output_names qu fl }
            else g6
          (g7.update_obj fl (fun o => { o with quantize := true }), true)
        | [] => (gA, matched)
  | _, _, _ => (g, matched)

/-- merge_q_unary (front_passes.py): returns immediately on a falsy
quantize graph attribute or an empty operator type list. -/
def merge_q_unary (g : Graph) (op_list : List String) : Graph :=
  if ¬ g.quantize then g
  else if op_list = [] then g
  else
    let ms := g.edges.flatMap (fun e1 =>
      if decide (g.getOp e1.src = some "DequantizeLinear") &&
          (op_list.any (fun t => decide (g.getOp e1.dst = some t))) &&
          decide (e1.attr.dst_in_port = 0) && decide (e1.src ≠ e1.dst) then
        dedupKeepFirst ((g.edges.filter (fun e2 =>
          decide (e2.src = e1.dst ∧ g.getOp e2.dst = some "QuantizeLinear"
            ∧ e2.dst ≠ e2.src ∧ e2.dst ≠ e1.src))).map
          (fun e2 => (e1.src, e1.dst, e2.dst)))
      else [])
    let r := ms.foldl (fun p m => merge_q_unary_process p.1 p.2 m) (g, false)
    if r.2 then clear_redundant_nodes r.1 else r.1

/-- Exact rational equality as a concrete instantiation of the
float-tolerance predicate, used to evaluate the passes on concrete
graphs. -/
def feqEq : ℚ → ℚ → Bool := fun a b => decide (a = b)

/-- Identity value-permutation kernel, a concrete instantiation of the
external numeric transpose collaborator. -/
def vtId : List Nat → List ℚ → List ℚ := fun _ v => v

/-- Concrete graph with a Sqrt node feeding a Reciprocal node:
X to S (Sqrt), S to R (Reciprocal), R to Y, with R a model output. -/
def exRsqrtGraph : Graph :=
  { nodes := [ { name := "X", op := "X", obj := some {} },
               { name := "S", op := "Sqrt", obj := some { type := "Sqrt" } },
               { name := "R", op := "Reciprocal", obj := some { type := "Reciprocal" } },
               { name := "Y", op := "Y", obj := some {} } ],
    edges := [ { src := "X", dst := "S" },
               { src := "S", dst := "R" },
               { src := "R", dst := "Y" } ],
    output_names := ["R"] }

/-- Concrete graph with a Mul node both of whose in-edges come from the
same source output port. -/
def exSquareGraph : Graph :=
  { nodes := [ { name := "A", op := "A", obj := some {} },
               { name := "M", op := "Mul", obj := some { type := "Mul" } } ],
    edges := [ { src := "A", dst := "M", key := 0,
                 attr := { dst_in_port := 0, tensor := { shape := some [some 2] } } },
               { src := "A", dst := "M", key := 1,
                 attr := { dst_in_port := 1, tensor := { shape := some [some 2] } } } ],
    output_names := ["M"] }

/-- Concrete graph in which an activation-capable operator feeds an
ArmClip with bounds 0 and 6 that is listed in output_names. -/
def exFuseReluGraph : Graph :=
  { nodes := [ { name := "L", op := "ArmConvolution",
                 obj := some { type := "ArmConvolution", is_activation := true } },
               { name := "C", op := "ArmClip",
                 obj := some { type := "ArmClip", min := 0, max := 6 } },
               { name := "O", op := "Out", obj := some { type := "Out" } } ],
    edges := [ { src := "L", dst := "C" },
               { src := "C", dst := "O" } ],
    output_names := ["C"] }

/-- Concrete graph with an ArmPow node whose scalar exponent input node
carries no operator object (an invalid Constant). -/
def exPowGraph : Graph :=
  { nodes := [ { name := "X", op := "X", obj := some {} },
               { name := "CN", op := "Constant", obj := none },
               { name := "P", op := "ArmPow", obj := some { type := "ArmPow" } } ],
    edges := [ { src := "X", dst := "P",
                 attr := { dst_in_port := 0, tensor := { shape := some [some 2, some 2] } } },
               { src := "CN", dst := "P",
                 attr := { dst_in_port := 1, tensor := { shape := some [] } } } ],
    output_names := ["P"] }

/-- Concrete graph for the transpose-sinking rewrite: In to T
(ArmTranspose) to U (layout-unaware) to D. -/
def exSinkGraph : Graph :=
  { nodes := [ { name := "In", op := "In", obj := some {} },
               { name := "T", op := "ArmTranspose",
                 obj := some { type := "ArmTranspose", perm := [0, 1] } },
               { name := "U", op := "ArmAbs",
                 obj := some { type := "ArmAbs", num_in_ports := 1 } },
               { name := "D", op := "Out", obj := some { type := "Out" } } ],
    edges := [ { src := "In", dst := "T" },
               { src := "T", dst := "U",
                 attr := { dst_in_port := 0, tensor := { shape := some [some 2] } } },
               { src := "U", dst := "D" } ],
    output_names := ["U"] }

/-- A concrete graph of exactly 300 nodes and no edges, exercising the
layout-cleanup iteration bound. -/
def exBig300 : Graph :=
  { nodes := List.replicate 300 { name := "n", op := "N", obj := none },
    edges := [] }

/-- A one-role merge_qconv match on names absent from a graph, whose
preconditions therefore fail. -/
def exQConvMatch : QConvMatch :=
  { x_dequant := "xd", w_dequant := "wd", b_dequant := "bd",
    conv := "cv", y_quant := "yq", relu := none }

/-- A concrete quantized-style graph whose conv node has two consumers,
so the single-consumer precondition of merge_qconv fails. -/
def exQConvGraph : Graph :=
  { nodes := [ { name := "xd", op := "DequantizeLinear",
                 obj := some { type := "DequantizeLinear" } },
               { name := "wd", op := "DequantizeLinear",
                 obj := some { type := "DequantizeLinear" } },
               { name := "bd", op := "DequantizeLinear",
                 obj := some { type := "DequantizeLinear" } },
               { name := "cv", op := "Conv", obj := some { type := "Conv" } },
               { name := "yq", op := "QuantizeLinear",
                 obj := some { type := "QuantizeLinear" } },
               { name := "z1", op := "Z", obj := some {} },
               { name := "z2", op := "Z", obj := some {} } ],
    edges := [ { src := "cv", dst := "z1" },
               { src := "cv", dst := "z2" } ],
    output_names := ["z1", "z2"],
    quantize := true }

/-- A small non-quantized graph used to exercise the quantize gate. -/
def exPlainGraph : Graph :=
  { nodes := [ { name := "a", op := "Concat", obj := some { type := "Concat" } },
               { name := "q", op := "QuantizeLinear",
                 obj := some { type := "QuantizeLinear" } } ],
    edges := [ { src := "a", dst := "q" } ],
    output_names := ["q"],
    quantize := false }

/-- The edge sort preserves length: insertion step. -/
theorem insertEdgeBy_length (k : Edge → Nat) (e : Edge) :
    ∀ l : List Edge, (insertEdgeBy k e l).length = l.length + 1 := by
  intro l
  induction l with
  | nil => rfl
  | cons f fs ih =>
    simp only [insertEdgeBy]
    split
    · simp
    · simp [ih]

/-- The edge sort preserves length. -/
theorem sortEdgesBy_length (k : Edge → Nat) :
    ∀ l : List Edge, (sortEdgesBy k l).length = l.length := by
  intro l
  induction l with
  | nil => rfl
  | cons e es ih => simp [sortEdgesBy, insertEdgeBy_length, ih]

/-- Inserting below the head of a list keeps it in front. -/
theorem insertEdgeBy_cons_of_le (k : Edge → Nat) (e f : Edge) (fs : List Edge)
    (h : k e ≤ k f) : insertEdgeBy k e (f :: fs) = e :: f :: fs := by
  simp [insertEdgeBy, h]

/-- Sorting a list already sorted by the key is the identity. -/
theorem sortEdgesBy_eq_self (k : Edge → Nat) :
    ∀ l : List Edge, List.Pairwise (fun a b => k a ≤ k b) l → sortEdgesBy k l = l := by
  intro l h
  induction l with
  | nil => rfl
  | cons e es ih =>
    rcases List.pairwise_cons.mp h with ⟨he, hes⟩
    simp only [sortEdgesBy, ih hes]
    cases es with
    | nil => rfl
    | cons f fs => exact insertEdgeBy_cons_of_le k e f fs (he f (by simp))

/-- A node whose lookup yields an operator object exists. -/
theorem hasNode_of_getObj_some {g : Graph} {n : String} {o : NodeObj}
    (h : g.getObj n = some o) : g.hasNode n = true := by
  unfold Graph.getObj at h
  unfold Graph.hasNode
  cases hf : g.nodes.find? (fun x => decide (x.name = n)) with
  | none => rw [hf] at h; exact absurd h (by simp)
  | some x =>
    have hmem := List.mem_of_find?_eq_some hf
    have hp := List.find?_some hf
    exact List.any_eq_true.mpr ⟨x, hmem, hp⟩

/-- find? commutes with a filter whose predicate is implied by the
search predicate. -/
theorem find?_filter_of_imp {α : Type} (p q : α → Bool)
    (himp : ∀ x, p x = true → q x = true) :
    ∀ l : List α, (l.filter q).find? p = l.find? p := by
  intro l
  induction l with
  | nil => rfl
  | cons x xs ih =>
    by_cases hq : q x = true
    · simp only [List.filter_cons, hq, if_true]
      by_cases hp : p x = true
      · simp [List.find?_cons, hp]
      · simp only [List.find?_cons, hp]
        simp only [Bool.not_eq_true] at hp
        simp [hp, ih]
    · have hp : p x = false := by
        cases hpx : p x with
        | false => rfl
        | true => exact absurd (himp x hpx) hq
      simp only [List.filter_cons, hq, if_false]
      simp [List.find?_cons, hp, ih]

/-- ensureNode is the identity when the node exists. -/
theorem ensureNode_of_mem {ns : List NodeEntry} {n : String}
    (h : ns.any (fun x => decide (x.name = n)) = true) : ensureNode ns n = ns := by
  simp [ensureNode, h]

/-- add_edge between existing nodes does not change the node list. -/
theorem add_edge_nodes_of_hasNode {g : Graph} {s d : String} (a : EdgeAttr)
    (hs : g.hasNode s = true) (hd : g.hasNode d = true) :
    (g.add_edge s d a).nodes = g.nodes := by
  unfold Graph.add_edge
  rw [ensureNode_of_mem hs, ensureNode_of_mem hd]

/-- Replacing a name absent from the list is the identity. -/
theorem listReplaceFirst_of_not_mem :
    ∀ (l : List String) (old new : String), old ∉ l → listReplaceFirst l old new = l := by
  intro l old new h
  induction l with
  | nil => rfl
  | cons x xs ih =>
    simp only [List.mem_cons, not_or] at h
    simp only [listReplaceFirst, if_neg (Ne.symm h.1)]
    rw [ih h.2]

/-- A list decomposes around the head of its filtered form. -/
theorem filter_eq_cons_decomp {α : Type} (p : α → Bool) :
    ∀ (l : List α) (e : α) (L' : List α), l.filter p = e :: L' →
    ∃ P S, l = P ++ e :: S ∧ P.filter p = [] ∧ S.filter p = L' := by
  intro l
  induction l with
  | nil => intro e L' h; simp at h
  | cons x xs ih =>
    intro e L' h
    by_cases hx : p x = true
    · rw [List.filter_cons_of_pos hx] at h
      injection h with h1 h2
      exact ⟨[], xs, by simp [h1], by simp, h2⟩
    · rw [List.filter_cons_of_neg (by simpa using hx)] at h
      obtain ⟨P, S, hl, hP, hS⟩ := ih e L' h
      refine ⟨x :: P, S, by simp [hl], ?_, hS⟩
      rw [List.filter_cons_of_neg (by simpa using hx), hP]

/-- Removing the first (src, dst) edge skips a prefix without such an
edge. -/
theorem removeFirstSD_append (s d : String) :
    ∀ (P : List Edge) (e : Edge) (S : List Edge),
    (∀ x ∈ P, ¬(x.src = s ∧ x.dst = d)) → e.src = s → e.dst = d →
    removeFirstSD (P ++ e :: S) s d = P ++ S := by
  intro P
  induction P with
  | nil =>
    intro e S _ hs hd
    simp [removeFirstSD, hs, hd]
  | cons x xs ih =>
    intro e S hP hs hd
    have hx := hP x (by simp)
    simp only [List.cons_append, removeFirstSD, if_neg hx]
    rw [List.append_eq, ih e S (fun y hy => hP y (by simp [hy])) hs hd]

/-- The removal of the first out-edge of a node locates exactly the
head of the filtered out-edge list. -/
theorem moveFold_remove_step (a : String) (l : List Edge) (e : Edge) (L' : List Edge)
    (h : l.filter (fun x => decide (x.src = a)) = e :: L') :
    e.src = a ∧
    ∃ P S, l = P ++ e :: S
      ∧ P.filter (fun x => decide (x.src = a)) = []
      ∧ S.filter (fun x => decide (x.src = a)) = L'
      ∧ removeFirstSD l a e.dst = P ++ S := by
  have hesrc : e.src = a := by
    have hmem : e ∈ l.filter (fun x => decide (x.src = a)) := by rw [h]; simp
    simpa using (List.mem_filter.mp hmem).2
  obtain ⟨P, S, hl, hP, hS⟩ := filter_eq_cons_decomp _ l e L' h
  refine ⟨hesrc, P, S, hl, hP, hS, ?_⟩
  rw [hl]
  apply removeFirstSD_append
  · intro x hx hcon
    have hmem : x ∈ P.filter (fun x => decide (x.src = a)) :=
      List.mem_filter.mpr ⟨hx, by simp [hcon.1]⟩
    rw [hP] at hmem
    simp at hmem
  · exact hesrc
  · rfl

/-- A filter keeping everything is the identity. -/
theorem filter_eq_self_of_none {α : Type} (p : α → Bool) (l : List α)
    (h : l.filter p = []) : l.filter (fun x => !(p x)) = l := by
  apply List.filter_eq_self.mpr
  intro x hx
  have : p x = false := by
    by_contra hne
    have : x ∈ l.filter p := List.mem_filter.mpr ⟨hx, by simpa using hne⟩
    rw [h] at this
    simp at this
  simp [this]

/-- The out-edge moving fold: given the filtered out-edge list of the
source node, the resulting edge list is exactly the non-out-edges of
the source followed by the moved copies, and the nodes and graph
attributes are untouched. -/
theorem moveFoldGo_spec (a b : String) (f : EdgeAttr → EdgeAttr) (hba : b ≠ a) :
    ∀ (L : List Edge) (g : Graph),
      g.edges.filter (fun e => decide (e.src = a)) = L →
      g.hasNode b = true →
      (∀ e ∈ L, g.hasNode e.dst = true) →
      ∃ ns : List Edge,
        (moveFoldGo a b f g L).edges = g.edges.filter (fun e => !(decide (e.src = a))) ++ ns
        ∧ ns.map Edge.data = L.map (fun e => (b, e.dst, f e.attr))
        ∧ (moveFoldGo a b f g L).nodes = g.nodes
        ∧ (moveFoldGo a b f g L).output_names = g.output_names
        ∧ (moveFoldGo a b f g L).quantize = g.quantize
        ∧ (moveFoldGo a b f g L).framework = g.framework := by
  intro L
  induction L with
  | nil =>
    intro g hL _ _
    exact ⟨[], by simp [moveFoldGo, filter_eq_self_of_none _ _ hL], by simp, rfl, rfl, rfl, rfl⟩
  | cons e L' ih =>
    intro g hL hb hd
    obtain ⟨hesrc, P, S, hl, hP, hS, hrem⟩ := moveFold_remove_step a g.edges e L' hL
    have hg1nodes : ((g.remove_edge a e.dst).add_edge b e.dst (f e.attr)).nodes = g.nodes := by
      have hdst := hd e (by simp)
      exact add_edge_nodes_of_hasNode _ (by simpa [Graph.remove_edge, Graph.hasNode] using hb)
        (by simpa [Graph.remove_edge, Graph.hasNode] using hdst)
    have hPall : ∀ x ∈ P, decide (x.src = a) = false := by
      intro x hx
      by_contra hne
      have : x ∈ P.filter (fun x => decide (x.src = a)) :=
        List.mem_filter.mpr ⟨hx, by simpa using hne⟩
      rw [hP] at this
      simp at this
    have hg1edges : ((g.remove_edge a e.dst).add_edge b e.dst (f e.attr)).edges
        = (P ++ S) ++ [{ src := b, dst := e.dst,
                         key := nextKey (removeFirstSD g.edges a e.dst) b e.dst,
                         attr := f e.attr }] := by
      simp [Graph.remove_edge, Graph.add_edge, hrem]
    have hstep : moveFoldGo a b f g (e :: L')
        = moveFoldGo a b f ((g.remove_edge a e.dst).add_edge b e.dst (f e.attr)) L' := rfl
    have hL1 : ((g.remove_edge a e.dst).add_edge b e.dst (f e.attr)).edges.filter
        (fun x => decide (x.src = a)) = L' := by
      rw [hg1edges]
      rw [List.filter_append, List.filter_append, hP, hS]
      simp [hba]
    have hb1 : ((g.remove_edge a e.dst).add_edge b e.dst (f e.attr)).hasNode b = true := by
      simpa [Graph.hasNode, hg1nodes] using hb
    have hd1 : ∀ x ∈ L', ((g.remove_edge a e.dst).add_edge b e.dst (f e.attr)).hasNode x.dst = true := by
      intro x hx
      have := hd x (by simp [hx])
      simpa [Graph.hasNode, hg1nodes] using this
    obtain ⟨ns', hE, hD, hN, hO, hQ, hF⟩ := ih _ hL1 hb1 hd1
    have hPneg : P.filter (fun e => !(decide (e.src = a))) = P := filter_eq_self_of_none _ _ hP
    refine ⟨{ src := b, dst := e.dst, key := nextKey (removeFirstSD g.edges a e.dst) b e.dst,
              attr := f e.attr } :: ns', ?_, ?_, ?_, ?_, ?_, ?_⟩
    · rw [hstep, hE, hg1edges, hl]
      simp only [List.filter_append, List.filter_cons, List.append_assoc]
      rw [hPneg]
      simp [hesrc, hba]
    · simp [Edge.data, hD]
    · rw [hstep, hN, hg1nodes]
    · rw [hstep, hO]
      simp [Graph.remove_edge, Graph.add_edge]
    · rw [hstep, hQ]
      simp [Graph.remove_edge, Graph.add_edge]
    · rw [hstep, hF]
      simp [Graph.remove_edge, Graph.add_edge]

/-- A name search for an existing name succeeds. -/
theorem find?_isSome_of_any {α : Type} (p : α → Bool) (l : List α)
    (h : l.any p = true) : ∃ x, l.find? p = some x := by
  obtain ⟨x, hx, hp⟩ := List.any_eq_true.mp h
  have := List.find?_isSome.mpr ⟨x, hx, hp⟩
  exact Option.isSome_iff_exists.mp this

/-- find? by name commutes with a name-preserving map. -/
theorem find?_name_map_cond (m : String) (F : NodeEntry → NodeEntry)
    (hF : ∀ x, (F x).name = x.name) : ∀ l : List NodeEntry,
    (l.map F).find? (fun x => decide (x.name = m))
      = (l.find? (fun x => decide (x.name = m))).map F := by
  intro l
  induction l with
  | nil => rfl
  | cons x xs ih =>
    by_cases hx : x.name = m
    · simp [List.find?_cons, hF, hx]
    · simp [List.find?_cons, hF, hx, ih]

/-- The conditional payload replacement preserves node names. -/
theorem replace_fun_name (n ty : String) (o : NodeObj) :
    ∀ x : NodeEntry,
    ((fun x : NodeEntry =>
        if x.name = n then { x with op := ty, obj := some { o with type := ty } } else x) x).name
      = x.name := by
  intro x
  by_cases hx : x.name = n <;> simp [hx]

/-- The conditional in-place object update preserves node names. -/
theorem update_fun_name (n : String) (f : NodeObj → NodeObj) :
    ∀ x : NodeEntry,
    ((fun x : NodeEntry => if x.name = n then { x with obj := x.obj.map f } else x) x).name
      = x.name := by
  intro x
  by_cases hx : x.name = n <;> simp [hx]

/-- replace_obj sets the operator label of the target node. -/
theorem getOp_replace_obj_self (g : Graph) (n ty : String) (o : NodeObj)
    (h : g.hasNode n = true) : (g.replace_obj n ty o).getOp n = some ty := by
  unfold Graph.replace_obj Graph.getOp
  rw [find?_name_map_cond n _ (replace_fun_name n ty o)]
  obtain ⟨x, hx⟩ := find?_isSome_of_any _ _ h
  have hpx : x.name = n := by simpa using List.find?_some hx
  simp [hx, hpx]

/-- replace_obj sets the operator object of the target node. -/
theorem getObj_replace_obj_self (g : Graph) (n ty : String) (o : NodeObj)
    (h : g.hasNode n = true) :
    (g.replace_obj n ty o).getObj n = some { o with type := ty } := by
  unfold Graph.replace_obj Graph.getObj
  rw [find?_name_map_cond n _ (replace_fun_name n ty o)]
  obtain ⟨x, hx⟩ := find?_isSome_of_any _ _ h
  have hpx : x.name = n := by simpa using List.find?_some hx
  simp [hx, hpx]

/-- replace_obj leaves the operator label of other nodes unchanged. -/
theorem getOp_replace_obj_ne (g : Graph) (n ty : String) (o : NodeObj) (m : String)
    (h : m ≠ n) : (g.replace_obj n ty o).getOp m = g.getOp m := by
  unfold Graph.replace_obj Graph.getOp
  rw [find?_name_map_cond m _ (replace_fun_name n ty o)]
  cases hx : g.nodes.find? (fun x => decide (x.name = m)) with
  | none => simp
  | some x =>
    have hpx : x.name = m := by simpa using List.find?_some hx
    have hxn : ¬ (x.name = n) := by rw [hpx]; exact h
    simp [hxn]

/-- replace_obj leaves the operator object of other nodes unchanged. -/
theorem getObj_replace_obj_ne (g : Graph) (n ty : String) (o : NodeObj) (m : String)
    (h : m ≠ n) : (g.replace_obj n ty o).getObj m = g.getObj m := by
  unfold Graph.replace_obj Graph.getObj
  rw [find?_name_map_cond m _ (replace_fun_name n ty o)]
  cases hx : g.nodes.find? (fun x => decide (x.name = m)) with
  | none => simp
  | some x =>
    have hpx : x.name = m := by simpa using List.find?_some hx
    have hxn : ¬ (x.name = n) := by rw [hpx]; exact h
    simp [hxn]

/-- update_obj applies the update to the target node object. -/
theorem getObj_update_obj_self (g : Graph) (n : String) (f : NodeObj → NodeObj) :
    (g.update_obj n f).getObj n = (g.getObj n).map f := by
  unfold Graph.update_obj Graph.getObj
  rw [find?_name_map_cond n _ (update_fun_name n f)]
  cases hx : g.nodes.find? (fun x => decide (x.name = n)) with
  | none => simp
  | some x =>
    have hpx : x.name = n := by simpa using List.find?_some hx
    simp [hpx]

/-- update_obj leaves other node objects unchanged. -/
theorem getObj_update_obj_ne (g : Graph) (n : String) (f : NodeObj → NodeObj) (m : String)
    (h : m ≠ n) : (g.update_obj n f).getObj m = g.getObj m := by
  unfold Graph.update_obj Graph.getObj
  rw [find?_name_map_cond m _ (update_fun_name n f)]
  cases hx : g.nodes.find? (fun x => decide (x.name = m)) with
  | none => simp
  | some x =>
    have hpx : x.name = m := by simpa using List.find?_some hx
    have hxn : ¬ (x.name = n) := by rw [hpx]; exact h
    simp [hxn]

/-- A name-preserving node map keeps node existence. -/
theorem any_name_map (m : String) (F : NodeEntry → NodeEntry)
    (hF : ∀ x, (F x).name = x.name) (l : List NodeEntry) :
    (l.map F).any (fun x => decide (x.name = m)) = l.any (fun x => decide (x.name = m)) := by
  rw [List.any_map]
  congr 1
  funext x
  simp [Function.comp, hF]

/-- replace_obj keeps node existence. -/
theorem hasNode_replace_obj (g : Graph) (n ty : String) (o : NodeObj) (m : String) :
    (g.replace_obj n ty o).hasNode m = g.hasNode m := by
  unfold Graph.replace_obj Graph.hasNode
  exact any_name_map m _ (replace_fun_name n ty o) g.nodes

/-- update_obj keeps node existence. -/
theorem hasNode_update_obj (g : Graph) (n : String) (f : NodeObj → NodeObj) (m : String) :
    (g.update_obj n f).hasNode m = g.hasNode m := by
  unfold Graph.update_obj Graph.hasNode
  exact any_name_map m _ (update_fun_name n f) g.nodes

/-- The removed node no longer exists. -/
theorem hasNode_remove_node_self (g : Graph) (n : String) :
    (g.remove_node n).hasNode n = false := by
  unfold Graph.remove_node Graph.hasNode
  simp only [List.any_eq_true, List.mem_filter]
  by_contra h
  simp only [Bool.not_eq_false, List.any_eq_true, List.mem_filter] at h
  obtain ⟨x, ⟨_, hx⟩, hn⟩ := h
  simp only [decide_eq_true_eq] at hn
  rw [hn] at hx
  simp at hx

/-- Removing a different node keeps the operator label. -/
theorem getOp_remove_node_ne (g : Graph) (n m : String) (h : m ≠ n) :
    (g.remove_node n).getOp m = g.getOp m := by
  unfold Graph.remove_node Graph.getOp
  rw [find?_filter_of_imp _ _ (fun x hx => by
    simp only [decide_eq_true_eq] at hx
    simp [hx, h])]

/-- Removing a different node keeps the operator object. -/
theorem getObj_remove_node_ne (g : Graph) (n m : String) (h : m ≠ n) :
    (g.remove_node n).getObj m = g.getObj m := by
  unfold Graph.remove_node Graph.getObj
  rw [find?_filter_of_imp _ _ (fun x hx => by
    simp only [decide_eq_true_eq] at hx
    simp [hx, h])]

/-- remove_edges_from changes only the edge list. -/
theorem remove_edges_from_parts (l : List Edge) :
    ∀ g : Graph,
    (g.remove_edges_from l).nodes = g.nodes
    ∧ (g.remove_edges_from l).output_names = g.output_names
    ∧ (g.remove_edges_from l).quantize = g.quantize
    ∧ (g.remove_edges_from l).framework = g.framework
    ∧ (g.remove_edges_from l).edges
        = l.foldl (fun es e => removeFirstSD es e.src e.dst) g.edges := by
  induction l with
  | nil => intro g; exact ⟨rfl, rfl, rfl, rfl, rfl⟩
  | cons e es ih =>
    intro g
    have hstep : g.remove_edges_from (e :: es) = (g.remove_edge e.src e.dst).remove_edges_from es := rfl
    rw [hstep]
    obtain ⟨h1, h2, h3, h4, h5⟩ := ih (g.remove_edge e.src e.dst)
    exact ⟨h1, h2, h3, h4, by rw [h5]; rfl⟩

/-- Sorting a singleton edge list is the identity. -/
theorem sortEdgesBy_singleton (k : Edge → Nat) (e : Edge) : sortEdgesBy k [e] = [e] := rfl

/-- Edge facts recovered from a data-projection equation for moved
edges. -/
theorem map_data_mem {ns routs : List Edge} {b : String} {f : EdgeAttr → EdgeAttr}
    (h : ns.map Edge.data = routs.map (fun e => (b, e.dst, f e.attr))) :
    ∀ x ∈ ns, x.src = b ∧ ∃ e' ∈ routs, x.dst = e'.dst ∧ x.attr = f e'.attr := by
  intro x hx
  have hmem : Edge.data x ∈ ns.map Edge.data := List.mem_map_of_mem _ hx
  rw [h] at hmem
  obtain ⟨e', he', hdata⟩ := List.mem_map.mp hmem
  unfold Edge.data at hdata
  simp only [Prod.ext_iff] at hdata
  exact ⟨hdata.1.symm, e', he', hdata.2.1.symm, hdata.2.2.symm⟩

/-- C1: for every graph whose Sqrt-to-Reciprocal pattern has the single
match (s, r), where s has exactly one out-edge (feeding r), both nodes
carry valid operator objects, r has no other in-edge and its out-edges
stay inside the rest of the graph, merge_rsqrt turns s into the single
fused ArmRsqrt node: s keeps its operator-label change and all its
original in-edges, receives all of r's original out-edges, r no longer
exists in the graph, and an occurrence of r in output_names is replaced
by the fused node. -/
theorem merge_rsqrt_single_fusion
    (g : Graph) (s r : String) (so ro : NodeObj) (es : Edge) (routs : List Edge)
    (hm : matchEdgePairs g ("Sqrt") [("Reciprocal")] = [(s, r)])
    (hso : g.getObj s = some so) (hro : g.getObj r = some ro)
    (hsr : s ≠ r)
    (hsout : g.edges.filter (fun e => decide (e.src = s)) = [es])
    (hes : es.dst = r)
    (hrin : g.edges.filter (fun e => decide (e.dst = r)) = [es])
    (hrouts : g.edges.filter (fun e => decide (e.src = r)) = routs)
    (hsorted : List.Pairwise (fun a b => a.attr.src_out_port ≤ b.attr.src_out_port) routs)
    (hdst : ∀ e ∈ routs, e.dst ≠ s ∧ e.dst ≠ r ∧ g.hasNode e.dst = true) :
    (merge_rsqrt g).getOp s = some ("ArmRsqrt")
    ∧ (merge_rsqrt g).getObj s = some { so with type := "ArmRsqrt" }
    ∧ (merge_rsqrt g).edges.filter (fun e => decide (e.dst = s))
        = g.edges.filter (fun e => decide (e.dst = s))
    ∧ ((merge_rsqrt g).edges.filter (fun e => decide (e.src = s))).map Edge.data
        = routs.map (fun e => (s, e.dst, e.attr))
    ∧ (merge_rsqrt g).hasNode r = false
    ∧ (merge_rsqrt g).output_names = listReplaceFirst g.output_names r s := by
  have hms : merge_rsqrt g = merge_rsqrt_step g (s, r) := by
    rw [merge_rsqrt, hm]
    rfl
  have hessrc : es.src = s := by
    have : es ∈ g.edges.filter (fun e => decide (e.src = s)) := by rw [hsout]; simp
    simpa using (List.mem_filter.mp this).2
  have hsoe : g.sorted_out_edges s = [es] := by
    unfold Graph.sorted_out_edges
    rw [hsout]
    rfl
  have hroe : g.sorted_out_edges r = routs := by
    unfold Graph.sorted_out_edges
    rw [hrouts]
    exact sortEdgesBy_eq_self _ _ hsorted
  have hhs : g.hasNode s = true := hasNode_of_getObj_some hso
  obtain ⟨ns, hE1, hD1, hN1, hO1, _, _⟩ :=
    moveFoldGo_spec r s id hsr routs g hrouts hhs (fun e he => (hdst e he).2.2)
  have hnsmem := map_data_mem hD1
  have hg1 : moveOutEdges g r s id = moveFoldGo r s id g routs := by
    unfold moveOutEdges
    rw [hroe]
  have hg2edges : ((moveOutEdges g r s id).replace_obj s ("ArmRsqrt") so).edges
      = g.edges.filter (fun e => !(decide (e.src = r))) ++ ns := by
    simp only [Graph.replace_obj]
    rw [hg1, hE1]
  have hg2nodes_has : ∀ m, ((moveOutEdges g r s id).replace_obj s ("ArmRsqrt") so).hasNode m
      = g.hasNode m := by
    intro m
    rw [hasNode_replace_obj]
    unfold Graph.hasNode
    rw [hg1, hN1]
  have hie : ((moveOutEdges g r s id).replace_obj s ("ArmRsqrt") so).edges.filter
      (fun e => decide (e.dst = r)) = [es] := by
    rw [hg2edges, List.filter_append]
    have h1 : (g.edges.filter (fun e => !(decide (e.src = r)))).filter
        (fun e => decide (e.dst = r))
        = (g.edges.filter (fun e => decide (e.dst = r))).filter
            (fun e => !(decide (e.src = r))) := List.filter_comm _ _ _
    have h2 : ns.filter (fun e => decide (e.dst = r)) = [] := by
      apply List.filter_eq_nil_iff.mpr
      intro x hx
      obtain ⟨_, e', he', hxd, _⟩ := hnsmem x hx
      simp [hxd, (hdst e' he').2.1]
    rw [h1, hrin, h2]
    simp [hessrc, hsr]
  have hoe : ((moveOutEdges g r s id).replace_obj s ("ArmRsqrt") so).edges.filter
      (fun e => decide (e.src = r)) = [] := by
    rw [hg2edges, List.filter_append]
    have h1 : (g.edges.filter (fun e => !(decide (e.src = r)))).filter
        (fun e => decide (e.src = r)) = [] := by
      rw [List.filter_filter]
      apply List.filter_eq_nil_iff.mpr
      intro x _
      simp
    have h2 : ns.filter (fun e => decide (e.src = r)) = [] := by
      apply List.filter_eq_nil_iff.mpr
      intro x hx
      simp [(hnsmem x hx).1, hsr]
    rw [h1, h2]
    rfl
  have hrmv : remove_node_safely ((moveOutEdges g r s id).replace_obj s ("ArmRsqrt") so) r
      = ((moveOutEdges g r s id).replace_obj s ("ArmRsqrt") so).remove_node r := by
    unfold remove_node_safely
    have hie' : ((moveOutEdges g r s id).replace_obj s ("ArmRsqrt") so).sorted_in_edges r
        = [es] := by
      unfold Graph.sorted_in_edges
      rw [hie]
      rfl
    have hoe' : ((moveOutEdges g r s id).replace_obj s ("ArmRsqrt") so).sorted_out_edges r
        = [] := by
      unfold Graph.sorted_out_edges
      rw [hoe]
      rfl
    rw [hie', hoe']
    simp
  have hg3out : (((moveOutEdges g r s id).replace_obj s ("ArmRsqrt") so).remove_node r).output_names
      = g.output_names := by
    simp only [Graph.remove_node, Graph.replace_obj]
    rw [hg1, hO1]
  have hstep : merge_rsqrt g =
      (if r ∈ g.output_names then
        { ((moveOutEdges g r s id).replace_obj s ("ArmRsqrt") so).remove_node r with
          output_names := listReplaceFirst g.output_names r s }
      else ((moveOutEdges g r s id).replace_obj s ("ArmRsqrt") so).remove_node r) := by
    rw [hms]
    simp only [merge_rsqrt_step, hso, hro, hsoe]
    rw [if_pos (show ([es] : List Edge).length = 1 from rfl)]
    rw [hrmv, hg3out]
  have hg3edges : (((moveOutEdges g r s id).replace_obj s ("ArmRsqrt") so).remove_node r).edges
      = g.edges.filter (fun e => !(decide (e.src = r)) && !(decide (e.dst = r))) ++ ns := by
    simp only [Graph.remove_node]
    rw [hg2edges, List.filter_append]
    have h1 : (g.edges.filter (fun e => !(decide (e.src = r)))).filter
        (fun e => !(decide (e.src = r)) && !(decide (e.dst = r)))
        = g.edges.filter (fun e => !(decide (e.src = r)) && !(decide (e.dst = r))) := by
      rw [List.filter_filter]
      apply List.filter_congr
      intro x _
      cases hxr : decide (x.src = r) <;> simp [hxr]
    have h2 : ns.filter (fun e => !(decide (e.src = r)) && !(decide (e.dst = r))) = ns := by
      apply List.filter_eq_self.mpr
      intro x hx
      obtain ⟨hxs, e', he', hxd, _⟩ := hnsmem x hx
      simp [hxs, hxd, hsr, (hdst e' he').2.1]
    rw [h1, h2]
  have hg3nodes_op : (((moveOutEdges g r s id).replace_obj s ("ArmRsqrt") so).remove_node r).getOp s
      = some ("ArmRsqrt") := by
    rw [getOp_remove_node_ne _ _ _ hsr]
    apply getOp_replace_obj_self
    unfold Graph.hasNode
    rw [hg1, hN1]
    exact hhs
  have hg3nodes_obj : (((moveOutEdges g r s id).replace_obj s ("ArmRsqrt") so).remove_node r).getObj s
      = some { so with type := "ArmRsqrt" } := by
    rw [getObj_remove_node_ne _ _ _ hsr]
    apply getObj_replace_obj_self
    unfold Graph.hasNode
    rw [hg1, hN1]
    exact hhs
  have hg3hasr : (((moveOutEdges g r s id).replace_obj s ("ArmRsqrt") so).remove_node r).hasNode r
      = false := hasNode_remove_node_self _ r
  have hg3din : (((moveOutEdges g r s id).replace_obj s ("ArmRsqrt") so).remove_node r).edges.filter
      (fun e => decide (e.dst = s)) = g.edges.filter (fun e => decide (e.dst = s)) := by
    rw [hg3edges, List.filter_append]
    have h2 : ns.filter (fun e => decide (e.dst = s)) = [] := by
      apply List.filter_eq_nil_iff.mpr
      intro x hx
      obtain ⟨_, e', he', hxd, _⟩ := hnsmem x hx
      simp [hxd, (hdst e' he').1]
    have h1 : (g.edges.filter (fun e => !(decide (e.src = r)) && !(decide (e.dst = r)))).filter
        (fun e => decide (e.dst = s)) = g.edges.filter (fun e => decide (e.dst = s)) := by
      rw [List.filter_filter]
      apply List.filter_congr
      intro x hxmem
      cases hxd : decide (x.dst = s) with
      | false => simp [hxd]
      | true =>
        simp only [decide_eq_true_eq] at hxd
        have hxsr : decide (x.src = r) = false := by
          by_contra hc
          simp only [Bool.not_eq_false, decide_eq_true_eq] at hc
          have : x ∈ g.edges.filter (fun e => decide (e.src = r)) :=
            List.mem_filter.mpr ⟨hxmem, by simp [hc]⟩
          rw [hrouts] at this
          exact (hdst x this).1 hxd
        have hxdr : decide (x.dst = r) = false := by
          simp only [hxd, decide_eq_false_iff_not]
          exact hsr
        simp [hxd, hxsr, hxdr, hsr]
    rw [h1, h2]
    simp
  have hg3dout : ((((moveOutEdges g r s id).replace_obj s ("ArmRsqrt") so).remove_node r).edges.filter
      (fun e => decide (e.src = s))).map Edge.data = routs.map (fun e => (s, e.dst, e.attr)) := by
    rw [hg3edges, List.filter_append]
    have h1 : (g.edges.filter (fun e => !(decide (e.src = r)) && !(decide (e.dst = r)))).filter
        (fun e => decide (e.src = s)) = [] := by
      rw [List.filter_filter]
      apply List.filter_eq_nil_iff.mpr
      intro x hxmem
      cases hxs : decide (x.src = s) with
      | false => simp [hxs]
      | true =>
        simp only [decide_eq_true_eq] at hxs
        have : x ∈ g.edges.filter (fun e => decide (e.src = s)) :=
          List.mem_filter.mpr ⟨hxmem, by simp [hxs]⟩
        rw [hsout] at this
        simp only [List.mem_singleton] at this
        subst this
        simp [hes]
    have h2 : ns.filter (fun e => decide (e.src = s)) = ns := by
      apply List.filter_eq_self.mpr
      intro x hx
      simp [(hnsmem x hx).1]
    rw [h1, h2, List.nil_append, hD1]
    rfl
  rw [hstep]
  by_cases hout : r ∈ g.output_names
  · rw [if_pos hout]
    exact ⟨hg3nodes_op, hg3nodes_obj, hg3din, hg3dout, hg3hasr, rfl⟩
  · rw [if_neg hout]
    exact ⟨hg3nodes_op, hg3nodes_obj, hg3din, hg3dout, hg3hasr,
      (hg3out.trans (listReplaceFirst_of_not_mem _ _ _ hout).symm)⟩

/-- Witness for C1: the fusion theorem applied to the concrete
Sqrt-to-Reciprocal graph. -/
theorem merge_rsqrt_single_fusion_witness :
    (merge_rsqrt exRsqrtGraph).getOp ("S") = some ("ArmRsqrt")
    ∧ (merge_rsqrt exRsqrtGraph).hasNode ("R") = false
    ∧ (merge_rsqrt exRsqrtGraph).output_names
        = listReplaceFirst exRsqrtGraph.output_names ("R") ("S") := by
  have h := merge_rsqrt_single_fusion exRsqrtGraph ("S") ("R")
      { type := "Sqrt" } { type := "Reciprocal" }
      { src := "S", dst := "R" } [{ src := "R", dst := "Y" }]
      (by decide) (by decide) (by decide) (by decide) (by decide) (by decide)
      (by decide) (by decide) (by decide) (by decide)
  exact ⟨h.1, h.2.2.2.2.1, h.2.2.2.2.2⟩

/-- C2: for every graph whose Mul matcher finds the single node mul,
carrying a valid object and exactly two in-edges e1 and e2 (in port
order): when both in-edges come from the same source node and source
output port, the per-match rewrite removes the duplicate second in-edge
by its key and replaces the payload in place with a unary ArmSquare,
leaving the node identity, the remaining in-edge and all other edges
and objects unchanged; when source or source port differ, the whole
pass leaves the graph untouched. -/
theorem merge_square2_spec
    (g : Graph) (mul : String) (o : NodeObj) (e1 e2 : Edge)
    (hm : single_node_matcher g ("Mul") = [mul])
    (ho : g.getObj mul = some o)
    (hfilter : g.edges.filter (fun e => decide (e.dst = mul)) = [e1, e2])
    (hport : e1.attr.dst_in_port ≤ e2.attr.dst_in_port)
    (hkey : ¬(e1.src = e2.src ∧ e1.key = e2.key))
    (huniq : ∀ e ∈ g.edges, (e.src = e2.src ∧ e.dst = mul ∧ e.key = e2.key) → e = e2) :
    ((e1.src = e2.src ∧ e1.attr.src_out_port = e2.attr.src_out_port) →
      (merge_square2_step (g, false) mul).2 = true
      ∧ (merge_square2_step (g, false) mul).1.getOp mul = some ("ArmSquare")
      ∧ (merge_square2_step (g, false) mul).1.hasNode mul = true
      ∧ (merge_square2_step (g, false) mul).1.edges.filter (fun e => decide (e.dst = mul)) = [e1]
      ∧ e2 ∉ (merge_square2_step (g, false) mul).1.edges
      ∧ (∀ e ∈ g.edges, e ≠ e2 → e ∈ (merge_square2_step (g, false) mul).1.edges)
      ∧ (∀ n, n ≠ mul → (merge_square2_step (g, false) mul).1.getObj n = g.getObj n))
    ∧ ((e1.src ≠ e2.src ∨ e1.attr.src_out_port ≠ e2.attr.src_out_port) → merge_square2 g = g) := by
  have he1mem : e1 ∈ g.edges ∧ e1.dst = mul := by
    have : e1 ∈ g.edges.filter (fun e => decide (e.dst = mul)) := by rw [hfilter]; simp
    have h := List.mem_filter.mp this
    exact ⟨h.1, by simpa using h.2⟩
  have he2mem : e2 ∈ g.edges ∧ e2.dst = mul := by
    have : e2 ∈ g.edges.filter (fun e => decide (e.dst = mul)) := by rw [hfilter]; simp
    have h := List.mem_filter.mp this
    exact ⟨h.1, by simpa using h.2⟩
  have hsie : g.sorted_in_edges mul = [e1, e2] := by
    unfold Graph.sorted_in_edges
    rw [hfilter]
    simp [sortEdgesBy, insertEdgeBy, hport]
  have hlen : (g.get_input_shapes mul).length = 2 := by
    unfold Graph.get_input_shapes
    rw [hsie]
    rfl
  constructor
  · intro ha
    have hedges : ((g.remove_edge_key e2.src mul e2.key).replace_obj mul ("ArmSquare") {}).edges
        = g.edges.filter (fun e => !(decide (e.src = e2.src ∧ e.dst = mul ∧ e.key = e2.key))) := by
      simp [Graph.replace_obj, Graph.remove_edge_key]
    have h1 : (decide (e1.src = e2.src ∧ e1.dst = mul ∧ e1.key = e2.key)) = false := by
      simp only [decide_eq_false_iff_not]
      intro hc
      exact hkey ⟨hc.1, hc.2.2⟩
    have h2 : (decide (e2.src = e2.src ∧ e2.dst = mul ∧ e2.key = e2.key)) = true := by
      simp only [decide_eq_true_eq]
      simp [he2mem.2]
    have hstep : merge_square2_step (g, false) mul
        = (((g.remove_edge_key e2.src mul e2.key).replace_obj mul ("ArmSquare") {}), true) := by
      simp only [merge_square2_step, ho]
      rw [if_neg (by rw [hlen]; simp)]
      rw [hsie]
      show (if e1.src ≠ e2.src ∨ e1.attr.src_out_port ≠ e2.attr.src_out_port then (g, false)
            else (((g.remove_edge_key e2.src mul e2.key).replace_obj mul ("ArmSquare") {}), true))
          = (((g.remove_edge_key e2.src mul e2.key).replace_obj mul ("ArmSquare") {}), true)
      rw [if_neg (by
        push_neg
        exact ⟨ha.1, ha.2⟩)]
    rw [hstep]
    have hhn : (g.remove_edge_key e2.src mul e2.key).hasNode mul = g.hasNode mul := rfl
    have hhnm : g.hasNode mul = true := hasNode_of_getObj_some ho
    refine ⟨rfl, ?_, ?_, ?_, ?_, ?_, ?_⟩
    · exact getOp_replace_obj_self _ _ _ _ (by rw [hhn]; exact hhnm)
    · rw [hasNode_replace_obj, hhn]
      exact hhnm
    · rw [hedges, List.filter_comm, hfilter]
      rw [List.filter_cons_of_pos (by rw [h1]; rfl)]
      rw [List.filter_cons_of_neg (by rw [h2]; simp)]
      rfl
    · intro hc
      rw [hedges] at hc
      have := (List.mem_filter.mp hc).2
      rw [h2] at this
      simp at this
    · intro e hemem hne
      have hno : (decide (e.src = e2.src ∧ e.dst = mul ∧ e.key = e2.key)) = false := by
        simp only [decide_eq_false_iff_not]
        intro hc
        exact hne (huniq e hemem hc)
      rw [hedges]
      exact List.mem_filter.mpr ⟨hemem, by simp [hno]⟩
    · intro n hn
      rw [getObj_replace_obj_ne _ _ _ _ _ hn]
      rfl
  · intro hb
    have hstep : merge_square2_step (g, false) mul = (g, false) := by
      simp only [merge_square2_step, ho]
      rw [if_neg (by rw [hlen]; simp)]
      rw [hsie]
      show (if e1.src ≠ e2.src ∨ e1.attr.src_out_port ≠ e2.attr.src_out_port then (g, false)
            else (((g.remove_edge_key e2.src mul e2.key).replace_obj mul ("ArmSquare") {}), true))
          = (g, false)
      rw [if_pos hb]
    rw [merge_square2, hm]
    simp only [List.foldl_cons, List.foldl_nil, hstep]
    rfl

/-- Witness for C2: the square-merge theorem applied to the concrete
Mul(x, x) graph. -/
theorem merge_square2_spec_witness :
    (merge_square2_step (exSquareGraph, false) ("M")).2 = true
    ∧ (merge_square2_step (exSquareGraph, false) ("M")).1.getOp ("M") = some ("ArmSquare") := by
  have h := merge_square2_spec exSquareGraph ("M") { type := "Mul" }
      { src := "A", dst := "M", key := 0,
        attr := { dst_in_port := 0, tensor := { shape := some [some 2] } } }
      { src := "A", dst := "M", key := 1,
        attr := { dst_in_port := 1, tensor := { shape := some [some 2] } } }
      (by decide) (by decide) (by decide) (by decide) (by decide) (by decide)
  have ha := h.1 (by decide)
  exact ⟨ha.1, ha.2.1⟩


/-- C4: the layout-cleanup loop of back_passes runs exactly
min(max(node-count / 15, 15), 20) iterations of its body; for a graph
of 300 nodes that is 20 iterations regardless of whether the transforms
keep finding matches, and the count never exceeds 20. -/
theorem layout_cleanup_bounded (step : Graph → Graph) (g : Graph)
    (h300 : g.nodes.length = 300) (hfw : g.framework = "ONNX") :
    iter_times g.nodes.length = 20
    ∧ layout_cleanup_loop step g = Nat.iterate step 20 g
    ∧ ∀ n, iter_times n ≤ 20 := by
  have h20 : iter_times 300 = 20 := by decide
  refine ⟨by rw [h300]; exact h20, ?_, fun n => Nat.min_le_right _ _⟩
  unfold layout_cleanup_loop
  rw [if_pos (Or.inl hfw), h300, h20]

/-- Witness for C4: the bound theorem applied to the concrete 300-node
graph. -/
theorem layout_cleanup_bounded_witness :
    exBig300.nodes.length = 300 ∧ layout_cleanup_loop id exBig300 = Nat.iterate id 20 exBig300 := by
  have h := layout_cleanup_bounded id exBig300 (by simp only [exBig300, List.length_replicate]) rfl
  exact ⟨by simp only [exBig300, List.length_replicate], h.2.1⟩

/-- C8 (code bug): the SSD and YOLO2 branches of detection_post_process
read the image height from the image_width option key, so with options
that set only image_width to 500 the synthesized image_height is 500
instead of the documented default, and a supplied image_height key is
ignored. -/
theorem detection_pp_image_height_from_width_bug :
    detection_pp_ssd_image_height [(("image_width" : String), (500 : Int))] = 500
    ∧ detection_pp_ssd_image_height [(("image_height" : String), (123 : Int))] = 300
    ∧ detection_pp_yolo2_nms_image_height [(("image_width" : String), (500 : Int))] = 500
    ∧ (500 : Int) ≠ 300 := by
  refine ⟨rfl, rfl, rfl, by decide⟩

/-- C10: with a falsy quantize graph attribute, merge_qconv,
merge_qmatmul, merge_q_multiple and merge_q_unary all return the graph
completely unchanged. -/
theorem quantize_gate_noop (feq : ℚ → ℚ → Bool) (g : Graph) (opl1 opl2 : List String)
    (h : g.quantize = false) :
    merge_qconv feq g = g ∧ merge_qmatmul g = g
    ∧ merge_q_multiple g opl1 = g ∧ merge_q_unary g opl2 = g := by
  refine ⟨?_, ?_, ?_, ?_⟩
  · simp [merge_qconv, h]
  · simp [merge_qmatmul, h]
  · simp [merge_q_multiple, h]
  · simp [merge_q_unary, h]

/-- Witness for C10: the quantize gate applied to a concrete
non-quantized graph. -/
theorem quantize_gate_noop_witness :
    exPlainGraph.quantize = false ∧ merge_qconv feqEq exPlainGraph = exPlainGraph := by
  exact ⟨rfl, (quantize_gate_noop feqEq exPlainGraph [("Concat")] [("Relu")] rfl).1⟩

/-- C6 (code bug): adjust_pow checks the Pow node object for None but
dereferences the operator object of the constant exponent-input node
without a None check; on a graph whose exponent node object is None the
pass raises instead of reporting and skipping. -/
theorem adjust_pow_none_exponent_crash :
    adjust_pow exPowGraph = .error ("AttributeError: NoneType object has no attribute type") := rfl

/-- C3 (code bug): fuse_relu without an intervening transpose removes
the fused Clip node through remove_node_safely but does not update
output_names, so after the pass the output list still names the removed
node. -/
theorem fuse_relu_output_names_stale :
    ("C" ∈ (fuse_relu feqEq [("ArmConvolution")] [("ArmClip")] exFuseReluGraph).output_names)
    ∧ (fuse_relu feqEq [("ArmConvolution")] [("ArmClip")] exFuseReluGraph).hasNode ("C") = false := by
  decide


set_option maxHeartbeats 2000000 in
set_option maxRecDepth 4000 in
/-- C5: in merge_qconv, any match for which one of the claimed
preconditions fails (unexpected dequantize/quantize in-edge count, a
scale or zero-point operand without a value or not constant, more than
one consumer of the convolution, a bias scale not float-equal to the
input-weight scale product, or a nonzero bias zero-point) is abandoned
with the graph exactly in its pre-attempt state: the per-match
processing returns the input pair unchanged, so no edge is removed or
added and no operator is replaced for that match. -/
theorem merge_qconv_validate_before_mutate (feq : ℚ → ℚ → Bool) (g : Graph) (matched : Bool)
    (m : QConvMatch) (h : merge_qconv_precond_fails feq g m = true) :
    merge_qconv_process feq (g, matched) m = (g, matched) := by
  cases hx : g.getObj m.x_dequant with
  | none => simp [merge_qconv_process, hx]
  | some xo =>
  cases hw : g.getObj m.w_dequant with
  | none => simp [merge_qconv_process, hx, hw]
  | some wo =>
  cases hbq : g.getObj m.b_dequant with
  | none => simp [merge_qconv_process, hx, hw, hbq]
  | some bo =>
  cases hcv : g.getObj m.conv with
  | none => simp [merge_qconv_process, hx, hw, hbq, hcv]
  | some co =>
  cases hyq : g.getObj m.y_quant with
  | none => simp [merge_qconv_process, hx, hw, hbq, hcv, hyq]
  | some yo =>
  unfold merge_qconv_precond_fails at h
  simp only [merge_qconv_process, hx, hw, hbq, hcv, hyq]
  by_cases h0 : (match m.relu with
      | none => false
      | some r => decide (g.getObj r = none)) = true
  · rw [if_pos h0]
  · rw [if_neg h0]
    by_cases h1 : inCountBad g m.x_dequant = true
    · rw [if_pos h1]
    · rw [if_neg h1]
      by_cases h2 : scaleZpBad g m.x_dequant true = true
      · rw [if_pos h2]
      · rw [if_neg h2]
        by_cases h3 : inCountBad g m.w_dequant = true
        · rw [if_pos h3]
        · rw [if_neg h3]
          by_cases h4 : scaleZpBad g m.w_dequant false = true
          · rw [if_pos h4]
          · rw [if_neg h4]
            by_cases h5 : inCountBad g m.b_dequant = true
            · rw [if_pos h5]
            · rw [if_neg h5]
              by_cases h6 : scaleZpBad g m.b_dequant false = true
              · rw [if_pos h6]
              · rw [if_neg h6]
                by_cases h7 : (g.sorted_out_edges m.conv).length ≠ 1
                · rw [if_pos h7]
                · rw [if_neg h7]
                  by_cases h8 : (match m.relu with
                      | none => false
                      | some r => decide ((g.sorted_out_edges r).length ≠ 1)) = true
                  · rw [if_pos h8]
                  · rw [if_neg h8]
                    by_cases h9 : inCountBad g m.y_quant = true
                    · rw [if_pos h9]
                    · rw [if_neg h9]
                      by_cases h10 : scaleZpBad g m.y_quant true = true
                      · rw [if_pos h10]
                      · rw [if_neg h10]
                        by_cases h11 : qconv_bias_quant_bad feq g m = true
                        · rw [if_pos h11]
                        · exfalso
                          simp only [Bool.not_eq_true] at h1 h2 h3 h4 h5 h6 h9 h10 h11
                          push_neg at h7
                          simp [h1, h2, h3, h4, h5, h6, h7, h9, h10, h11] at h


/-- Witness for C5: the validate-before-mutate theorem applied to a
concrete match whose convolution has two consumers. -/
theorem merge_qconv_validate_before_mutate_witness :
    merge_qconv_precond_fails feqEq exQConvGraph exQConvMatch = true
    ∧ merge_qconv_process feqEq (exQConvGraph, false) exQConvMatch = (exQConvGraph, false) := by
  exact ⟨by decide,
    merge_qconv_validate_before_mutate feqEq exQConvGraph false exQConvMatch (by decide)⟩


/-- ensureNode preserves a successful name search. -/
theorem ensureNode_find (l : List NodeEntry) (m : String) (p : NodeEntry → Bool)
    (x : NodeEntry) (h : l.find? p = some x) : (ensureNode l m).find? p = some x := by
  unfold ensureNode
  split
  · exact h
  · rw [List.find?_append, h]
    rfl

/-- ensureNode preserves node existence. -/
theorem ensureNode_any (l : List NodeEntry) (m : String) (p : NodeEntry → Bool)
    (h : l.any p = true) : (ensureNode l m).any p = true := by
  unfold ensureNode
  split
  · exact h
  · rw [List.any_append, h]
    rfl

/-- add_edge preserves the lookup of an existing node. -/
theorem add_edge_preserves_lookup (g : Graph) (sd dd : String) (a : EdgeAttr) (n : String)
    (h : g.hasNode n = true) :
    (g.add_edge sd dd a).getObj n = g.getObj n ∧ (g.add_edge sd dd a).hasNode n = true := by
  obtain ⟨x, hx⟩ := find?_isSome_of_any _ _ h
  constructor
  · unfold Graph.add_edge Graph.getObj
    rw [hx, ensureNode_find _ _ _ _ (ensureNode_find _ _ _ _ hx)]
  · unfold Graph.add_edge Graph.hasNode
    exact ensureNode_any _ _ _ (ensureNode_any _ _ _ h)

/-- The reconnection fold of remove_node_safely preserves the lookup of
an existing node. -/
theorem rns_fold_lookup (e0 : Edge) (n : String) :
    ∀ (l : List Edge) (g : Graph), g.hasNode n = true →
    ((l.foldl (fun g oeE => g.add_edge e0.src oeE.dst
        { src_out_port := e0.attr.src_out_port, dst_in_port := oeE.attr.dst_in_port,
          tensor := e0.attr.tensor }) g).getObj n = g.getObj n
     ∧ (l.foldl (fun g oeE => g.add_edge e0.src oeE.dst
        { src_out_port := e0.attr.src_out_port, dst_in_port := oeE.attr.dst_in_port,
          tensor := e0.attr.tensor }) g).hasNode n = true) := by
  intro l
  induction l with
  | nil => intro g h; exact ⟨rfl, h⟩
  | cons e es ih =>
    intro g h
    have hstep := add_edge_preserves_lookup g e0.src e.dst
      { src_out_port := e0.attr.src_out_port, dst_in_port := e.attr.dst_in_port,
        tensor := e0.attr.tensor } n h
    have := ih _ hstep.2
    exact ⟨this.1.trans hstep.1, this.2⟩

/-- remove_node_safely on a node with exactly one in-edge removes the
node and leaves other node objects in place. -/
theorem remove_node_safely_result (g : Graph) (nn : String) (e0 : Edge)
    (hie : g.edges.filter (fun e => decide (e.dst = nn)) = [e0]) :
    (remove_node_safely g nn).hasNode nn = false
    ∧ (∀ n, n ≠ nn → g.hasNode n = true →
        (remove_node_safely g nn).getObj n = g.getObj n) := by
  have hie' : g.sorted_in_edges nn = [e0] := by
    unfold Graph.sorted_in_edges
    rw [hie]
    rfl
  have hform : remove_node_safely g nn
      = if (g.sorted_out_edges nn).length ≥ 1 then
          ((g.sorted_out_edges nn).foldl (fun g oeE => g.add_edge e0.src oeE.dst
            { src_out_port := e0.attr.src_out_port, dst_in_port := oeE.attr.dst_in_port,
              tensor := e0.attr.tensor }) g).remove_node nn
        else g.remove_node nn := by
    unfold remove_node_safely
    rw [hie']
  rw [hform]
  by_cases hoe : (g.sorted_out_edges nn).length ≥ 1
  · rw [if_pos hoe]
    refine ⟨hasNode_remove_node_self _ _, ?_⟩
    intro n hn hhn
    rw [getObj_remove_node_ne _ _ _ hn]
    exact (rns_fold_lookup e0 n (g.sorted_out_edges nn) g hhn).1
  · rw [if_neg hoe]
    exact ⟨hasNode_remove_node_self _ _, fun n hn _ => getObj_remove_node_ne _ _ _ hn⟩


/-- C7: fuse_relu fuses a following Clip or ArmClip into a preceding
activation-capable operator only when the clip min is float-equal to 0
and the max float-equal to 6, in which case the operator activations
attribute becomes RELU6 and the clip node is removed; for any other
clip bounds the per-match rewrite returns the graph unchanged. -/
theorem fuse_relu_clip_gate
    (feq : ℚ → ℚ → Bool) (g : Graph) (linear relu : String) (lo ro : NodeObj) (e_lr : Edge)
    (hlo : g.getObj linear = some lo) (hro : g.getObj relu = some ro)
    (hact : lo.is_activation = true) (hnone : lo.activations = "NONE")
    (hout : g.edges.filter (fun e => decide (e.src = linear)) = [e_lr])
    (hclip : ro.type = "Clip" ∨ ro.type = "ArmClip")
    (hin : g.edges.filter (fun e => decide (e.dst = relu)) = [e_lr])
    (hne : linear ≠ relu) :
    ((feq ro.min 0 = true ∧ feq ro.max 6 = true) →
      ((fuse_relu_step feq g { linear := linear, relu := relu, transpose := none }).getObj
          linear).map (fun o => o.activations) = some ("RELU6")
      ∧ (fuse_relu_step feq g
          { linear := linear, relu := relu, transpose := none }).hasNode relu = false)
    ∧ (¬(feq ro.min 0 = true ∧ feq ro.max 6 = true) →
      fuse_relu_step feq g { linear := linear, relu := relu, transpose := none } = g) := by
  have hlen1 : g.sorted_out_edges linear = [e_lr] := by
    unfold Graph.sorted_out_edges
    rw [hout]
    rfl
  constructor
  · intro ha
    have hstep : fuse_relu_step feq g { linear := linear, relu := relu, transpose := none }
        = remove_node_safely
            (g.update_obj linear (fun o =>
              { o with activations := ({ ro with activations := "RELU6" } : NodeObj).activations }))
            relu := by
      simp only [fuse_relu_step, hlo, hro]
      rw [if_neg (by simp [hact, hnone, hlen1])]
      rw [if_pos hclip, if_pos ha]
    rw [hstep]
    have hedges : (g.update_obj linear (fun o =>
        { o with activations := ({ ro with activations := "RELU6" } : NodeObj).activations })).edges
          = g.edges := rfl
    have hres := remove_node_safely_result
      (g.update_obj linear (fun o =>
        { o with activations := ({ ro with activations := "RELU6" } : NodeObj).activations }))
      relu e_lr (by rw [hedges, hin])
    refine ⟨?_, hres.1⟩
    rw [hres.2 linear hne (by rw [hasNode_update_obj]; exact hasNode_of_getObj_some hlo)]
    rw [getObj_update_obj_self, hlo]
    rfl
  · intro hb
    simp only [fuse_relu_step, hlo, hro]
    rw [if_neg (by simp [hact, hnone, hlen1])]
    rw [if_pos hclip, if_neg hb]


/-- Witness for C7: the clip-gate theorem applied to the concrete
convolution-clip graph with bounds 0 and 6. -/
theorem fuse_relu_clip_gate_witness :
    ((fuse_relu_step feqEq exFuseReluGraph
        { linear := "L", relu := "C", transpose := none }).getObj ("L")).map
      (fun o => o.activations) = some ("RELU6")
    ∧ (fuse_relu_step feqEq exFuseReluGraph
        { linear := "L", relu := "C", transpose := none }).hasNode ("C") = false := by
  have h := fuse_relu_clip_gate feqEq exFuseReluGraph ("L") ("C")
      { type := "ArmConvolution", is_activation := true }
      { type := "ArmClip", min := 0, max := 6 }
      { src := "L", dst := "C" }
      (by decide) (by decide) (by decide) (by decide) (by decide) (by decide) (by decide)
      (by decide)
  exact h.1 (by decide)


/-- An append around a cons equal to a singleton forces both sides
empty. -/
theorem append_cons_eq_singleton {α : Type} {l1 l2 : List α} {x y : α}
    (h : l1 ++ x :: l2 = [y]) : l1 = [] ∧ l2 = [] ∧ x = y := by
  cases l1 with
  | nil => simp_all
  | cons a as =>
    simp only [List.cons_append] at h
    injection h with h1 h2
    simp at h2

/-- Removing the only in-edge of a node locates exactly the head of
its filtered in-edge list. -/
theorem remove_by_dst_step (d : String) (l : List Edge) (e : Edge)
    (h : l.filter (fun x => decide (x.dst = d)) = [e]) :
    e.dst = d ∧ ∃ P S, l = P ++ e :: S
      ∧ P.filter (fun x => decide (x.dst = d)) = []
      ∧ S.filter (fun x => decide (x.dst = d)) = []
      ∧ removeFirstSD l e.src d = P ++ S := by
  have hed : e.dst = d := by
    have hmem : e ∈ l.filter (fun x => decide (x.dst = d)) := by rw [h]; simp
    simpa using (List.mem_filter.mp hmem).2
  obtain ⟨P, S, hl, hP, hS⟩ := filter_eq_cons_decomp _ l e [] h
  refine ⟨hed, P, S, hl, hP, hS, ?_⟩
  rw [hl]
  apply removeFirstSD_append
  · intro x hx hcon
    have hmem : x ∈ P.filter (fun x => decide (x.dst = d)) :=
      List.mem_filter.mpr ⟨hx, by simp [hcon.2]⟩
    rw [hP] at hmem
    simp at hmem
  · rfl
  · exact hed

/-- Filtering after a mid-list deletion, when the deleted edge does not
satisfy the predicate. -/
theorem filter_skip_removed (q : Edge → Bool) (P S : List Edge) (e : Edge)
    (hq : q e = false) :
    (P ++ S).filter q = (P ++ e :: S).filter q := by
  simp [List.filter_append, List.filter_cons, hq]

/-- Filtering after a mid-list deletion, when the deleted edge was the
only edge satisfying the predicate. -/
theorem filter_hits_removed (q : Edge → Bool) (P S : List Edge) (e : Edge)
    (hq : q e = true) (h : (P ++ e :: S).filter q = [e]) :
    (P ++ S).filter q = [] := by
  rw [List.filter_append, List.filter_cons_of_pos hq] at h
  obtain ⟨h1, h2, _⟩ := append_cons_eq_singleton h
  rw [List.filter_append, h1, h2]
  rfl


/-- C9: for every graph whose ArmTranspose-to-unaware matcher finds the
single match (t, u), where the transpose has one out-edge feeding u,
the unaware operator u has one input port, one output port in use and a
fully known input shape, the rewrite moves the transpose past u: the
transpose former source feeds u directly at the port the transpose
used, the single output of u feeds the transpose on ports 0/0, every
former consumer of u consumes the transpose instead with source port 0,
and an occurrence of u in output_names is replaced by the transpose. -/
theorem sink_single_transpose_moves
    (vt : List Nat → List ℚ → List ℚ) (uts : List String) (g : Graph)
    (t u : String) (tObj uObj : NodeObj) (est etu : Edge) (uouts : List Edge)
    (dims : List (Option Nat))
    (hm : matchEdgePairs g ("ArmTranspose") uts = [(t, u)])
    (hto : g.getObj t = some tObj) (huo : g.getObj u = some uObj)
    (huin : uObj.num_in_ports = 1)
    (hports : (g.get_out_ports u).length = 1)
    (hst : g.edges.filter (fun e => decide (e.src = t)) = [etu])
    (hetu : etu.dst = u)
    (hshape : etu.attr.tensor.shape = some dims)
    (hdims : ∀ d ∈ dims, d ≠ none)
    (htin : g.edges.filter (fun e => decide (e.dst = t)) = [est])
    (hdu : g.edges.filter (fun e => decide (e.dst = u)) = [etu])
    (huouts : g.edges.filter (fun e => decide (e.src = u)) = uouts)
    (hsorted : List.Pairwise (fun a b => a.attr.src_out_port ≤ b.attr.src_out_port) uouts)
    (hdstf : ∀ e ∈ uouts, e.dst ≠ t ∧ e.dst ≠ u ∧ g.hasNode e.dst = true)
    (htu : t ≠ u) (hsrct : est.src ≠ t) (hsrcu : est.src ≠ u)
    (hhsrc : g.hasNode est.src = true) :
    ((sink_single_transpose vt uts g).edges.filter (fun e => decide (e.dst = u))).map Edge.data
        = [(est.src, u, { est.attr with dst_in_port := etu.attr.dst_in_port })]
    ∧ (∃ ten : Tensor,
        ((sink_single_transpose vt uts g).edges.filter (fun e => decide (e.src = u))).map Edge.data
          = [(u, t, { src_out_port := 0, dst_in_port := 0, tensor := ten })])
    ∧ ((sink_single_transpose vt uts g).edges.filter (fun e => decide (e.src = t))).map Edge.data
        = uouts.map (fun e => (t, e.dst, { e.attr with src_out_port := 0 }))
    ∧ (sink_single_transpose vt uts g).output_names = listReplaceFirst g.output_names u t := by
  have hG : sink_single_transpose vt uts g = sink_single_transpose_step vt g (t, u) := by
    rw [sink_single_transpose, hm]
    rfl
  have hetu_src : etu.src = t := by
    have : etu ∈ g.edges.filter (fun e => decide (e.src = t)) := by rw [hst]; simp
    simpa using (List.mem_filter.mp this).2
  have hest_dst : est.dst = t := by
    have : est ∈ g.edges.filter (fun e => decide (e.dst = t)) := by rw [htin]; simp
    simpa using (List.mem_filter.mp this).2
  have hsoe_t : g.sorted_out_edges t = [etu] := by
    unfold Graph.sorted_out_edges
    rw [hst]
    rfl
  have hsie_t : g.sorted_in_edges t = [est] := by
    unfold Graph.sorted_in_edges
    rw [htin]
    rfl
  have hsie_u : g.sorted_in_edges u = [etu] := by
    unfold Graph.sorted_in_edges
    rw [hdu]
    rfl
  have hgis : (g.get_input_shapes u).get? 0 = some (some dims) := by
    unfold Graph.get_input_shapes
    rw [hsie_u]
    simp [hshape]
  have hany : (dims.any fun s => decide (s = none)) = false := by
    by_contra hc
    rw [Bool.not_eq_false] at hc
    obtain ⟨d, hd, hp⟩ := List.any_eq_true.mp hc
    exact hdims d hd (by simpa using hp)
  have hstep : sink_single_transpose_step vt g (t, u)
      = (let g2 := (g.remove_edge est.src t).remove_edges_from [etu]
         let ten := (g2.sorted_out_edges u).foldl (fun acc e =>
             match e.attr.tensor.value with
             | some v => some (vt (permIndexList tObj.perm) v)
             | none => acc) none
         let g3 := moveOutEdges g2 u t (fun a => { a with src_out_port := 0 })
         let g4 := g3.add_edge est.src u { est.attr with dst_in_port := etu.attr.dst_in_port }
         let g5 := g4.add_edge u t
           { src_out_port := 0, dst_in_port := 0, tensor := { value := ten } }
         let g6 :=
           if uObj.type = "ArmActivation" ∧ uObj.method = "PRELU" then
             g5.update_obj u (fun o =>
               { o with negative_slope := o.negative_slope.map (vt (permIndexList tObj.perm)) })
           else g5
         if u ∈ g6.output_names then
           { g6 with output_names := listReplaceFirst g6.output_names u t }
         else g6) := by
    simp only [sink_single_transpose_step, hto, huo, hsoe_t, hgis, hsie_t]
    rw [if_pos (⟨rfl, huin, hports⟩ :
      ([etu] : List Edge).length = 1 ∧ uObj.num_in_ports = 1 ∧ (g.get_out_ports u).length = 1)]
    rw [if_neg (by rw [hany]; simp)]
  obtain ⟨hestd, P1, S1, hgl1, hP1, hS1, hrem1⟩ := remove_by_dst_step t g.edges est htin
  have hg1e : (g.remove_edge est.src t).edges = P1 ++ S1 := hrem1
  have htrans1 : ∀ q : Edge → Bool, q est = false →
      (g.remove_edge est.src t).edges.filter q = g.edges.filter q := by
    intro q hq
    rw [hg1e, filter_skip_removed q P1 S1 est hq, ← hgl1]
  have hg1_dstt : (g.remove_edge est.src t).edges.filter (fun e => decide (e.dst = t)) = [] := by
    rw [hg1e]
    exact filter_hits_removed _ P1 S1 est (by simp [hest_dst]) (by rw [← hgl1]; exact htin)
  have hg1_srct : (g.remove_edge est.src t).edges.filter (fun e => decide (e.src = t)) = [etu] := by
    rw [htrans1 _ (by simp [hsrct])]
    exact hst
  have hg1_srcu : (g.remove_edge est.src t).edges.filter (fun e => decide (e.src = u)) = uouts := by
    rw [htrans1 _ (by simp [hsrcu])]
    exact huouts
  have hg1_dstu : (g.remove_edge est.src t).edges.filter (fun e => decide (e.dst = u)) = [etu] := by
    rw [htrans1 _ (by rw [hest_dst]; simp [htu])]
    exact hdu
  obtain ⟨_, P2, S2, hgl2, hP2, hS2, hrem2⟩ :=
    moveFold_remove_step t (g.remove_edge est.src t).edges etu [] hg1_srct
  have hg2form : (g.remove_edge est.src t).remove_edges_from [etu]
      = ((g.remove_edge est.src t).remove_edge etu.src etu.dst) := rfl
  have hg2e : ((g.remove_edge est.src t).remove_edges_from [etu]).edges = P2 ++ S2 := by
    rw [hg2form]
    show removeFirstSD (g.remove_edge est.src t).edges etu.src etu.dst = P2 ++ S2
    rw [hetu_src]
    exact hrem2
  have htrans2 : ∀ q : Edge → Bool, q etu = false →
      ((g.remove_edge est.src t).remove_edges_from [etu]).edges.filter q
        = (g.remove_edge est.src t).edges.filter q := by
    intro q hq
    rw [hg2e, filter_skip_removed q P2 S2 etu hq, ← hgl2]
  have hg2_srct : ((g.remove_edge est.src t).remove_edges_from [etu]).edges.filter
      (fun e => decide (e.src = t)) = [] := by
    rw [hg2e]
    exact filter_hits_removed _ P2 S2 etu (by simp [hetu_src]) (by rw [← hgl2]; exact hg1_srct)
  have hg2_dstu : ((g.remove_edge est.src t).remove_edges_from [etu]).edges.filter
      (fun e => decide (e.dst = u)) = [] := by
    rw [hg2e]
    exact filter_hits_removed _ P2 S2 etu (by simp [hetu]) (by rw [← hgl2]; exact hg1_dstu)
  have hg2_srcu : ((g.remove_edge est.src t).remove_edges_from [etu]).edges.filter
      (fun e => decide (e.src = u)) = uouts := by
    rw [htrans2 _ (by rw [hetu_src]; simp [htu])]
    exact hg1_srcu
  have hg2nodes : ((g.remove_edge est.src t).remove_edges_from [etu]).nodes = g.nodes := by
    rw [(remove_edges_from_parts [etu] (g.remove_edge est.src t)).1]
    rfl
  have hg2out : ((g.remove_edge est.src t).remove_edges_from [etu]).output_names
      = g.output_names := by
    rw [(remove_edges_from_parts [etu] (g.remove_edge est.src t)).2.1]
    rfl
  have hg2has : ∀ n, ((g.remove_edge est.src t).remove_edges_from [etu]).hasNode n
      = g.hasNode n := by
    intro n
    unfold Graph.hasNode
    rw [hg2nodes]
  have hsoe2u : ((g.remove_edge est.src t).remove_edges_from [etu]).sorted_out_edges u
      = uouts := by
    unfold Graph.sorted_out_edges
    rw [hg2_srcu]
    exact sortEdgesBy_eq_self _ _ hsorted
  obtain ⟨ns, hE3, hD3, hN3, hO3, _, _⟩ :=
    moveFoldGo_spec u t (fun a => { a with src_out_port := 0 }) htu
      uouts ((g.remove_edge est.src t).remove_edges_from [etu]) hg2_srcu
      (by rw [hg2has]; exact hasNode_of_getObj_some hto)
      (fun e he => by rw [hg2has]; exact (hdstf e he).2.2)
  have hnsmem := @map_data_mem ns uouts t (fun a => { a with src_out_port := 0 }) hD3
  have hmove : moveOutEdges ((g.remove_edge est.src t).remove_edges_from [etu]) u t
      (fun a => { a with src_out_port := 0 })
      = moveFoldGo u t (fun a => { a with src_out_port := 0 })
          ((g.remove_edge est.src t).remove_edges_from [etu]) uouts := by
    unfold moveOutEdges
    rw [hsoe2u]
  have hstep2 : sink_single_transpose_step vt g (t, u) = (if u ∈ (if uObj.type = "ArmActivation" ∧ uObj.method = "PRELU" then (((moveOutEdges ((g.remove_edge est.src t).remove_edges_from [etu]) u t (fun a => { a with src_out_port := 0 })).add_edge est.src u { est.attr with dst_in_port := etu.attr.dst_in_port }).add_edge u t { src_out_port := 0, dst_in_port := 0, tensor := { value := ((((g.remove_edge est.src t).remove_edges_from [etu]).sorted_out_edges u).foldl (fun acc e => match e.attr.tensor.value with | some v => some (vt (permIndexList tObj.perm) v) | none => acc) none) } }).update_obj u (fun o => { o with negative_slope := o.negative_slope.map (vt (permIndexList tObj.perm)) }) else (((moveOutEdges ((g.remove_edge est.src t).remove_edges_from [etu]) u t (fun a => { a with src_out_port := 0 })).add_edge est.src u { est.attr with dst_in_port := etu.attr.dst_in_port }).add_edge u t { src_out_port := 0, dst_in_port := 0, tensor := { value := ((((g.remove_edge est.src t).remove_edges_from [etu]).sorted_out_edges u).foldl (fun acc e => match e.attr.tensor.value with | some v => some (vt (permIndexList tObj.perm) v) | none => acc) none) } })).output_names then { (if uObj.type = "ArmActivation" ∧ uObj.method = "PRELU" then (((moveOutEdges ((g.remove_edge est.src t).remove_edges_from [etu]) u t (fun a => { a with src_out_port := 0 })).add_edge est.src u { est.attr with dst_in_port := etu.attr.dst_in_port }).add_edge u t { src_out_port := 0, dst_in_port := 0, tensor := { value := ((((g.remove_edge est.src t).remove_edges_from [etu]).sorted_out_edges u).foldl (fun acc e => match e.attr.tensor.value with | some v => some (vt (permIndexList tObj.perm) v) | none => acc) none) } }).update_obj u (fun o => { o with negative_slope := o.negative_slope.map (vt (permIndexList tObj.perm)) }) else (((moveOutEdges ((g.remove_edge est.src t).remove_edges_from [etu]) u t (fun a => { a with src_out_port := 0 })).add_edge est.src u { est.attr with dst_in_port := etu.attr.dst_in_port }).add_edge u t { src_out_port := 0, dst_in_port := 0, tensor := { value := ((((g.remove_edge est.src t).remove_edges_from [etu]).sorted_out_edges u).foldl (fun acc e => match e.attr.tensor.value with | some v => some (vt (permIndexList tObj.perm) v) | none => acc) none) } })) with output_names := listReplaceFirst (if uObj.type = "ArmActivation" ∧ uObj.method = "PRELU" then (((moveOutEdges ((g.remove_edge est.src t).remove_edges_from [etu]) u t (fun a => { a with src_out_port := 0 })).add_edge est.src u { est.attr with dst_in_port := etu.attr.dst_in_port }).add_edge u t { src_out_port := 0, dst_in_port := 0, tensor := { value := ((((g.remove_edge est.src t).remove_edges_from [etu]).sorted_out_edges u).foldl (fun acc e => match e.attr.tensor.value with | some v => some (vt (permIndexList tObj.perm) v) | none => acc) none) } }).update_obj u (fun o => { o with negative_slope := o.negative_slope.map (vt (permIndexList tObj.perm)) }) else (((moveOutEdges ((g.remove_edge est.src t).remove_edges_from [etu]) u t (fun a => { a with src_out_port := 0 })).add_edge est.src u { est.attr with dst_in_port := etu.attr.dst_in_port }).add_edge u t { src_out_port := 0, dst_in_port := 0, tensor := { value := ((((g.remove_edge est.src t).remove_edges_from [etu]).sorted_out_edges u).foldl (fun acc e => match e.attr.tensor.value with | some v => some (vt (permIndexList tObj.perm) v) | none => acc) none) } })).output_names u t } else (if uObj.type = "ArmActivation" ∧ uObj.method = "PRELU" then (((moveOutEdges ((g.remove_edge est.src t).remove_edges_from [etu]) u t (fun a => { a with src_out_port := 0 })).add_edge est.src u { est.attr with dst_in_port := etu.attr.dst_in_port }).add_edge u t { src_out_port := 0, dst_in_port := 0, tensor := { value := ((((g.remove_edge est.src t).remove_edges_from [etu]).sorted_out_edges u).foldl (fun acc e => match e.attr.tensor.value with | some v => some (vt (permIndexList tObj.perm) v) | none => acc) none) } }).update_obj u (fun o => { o with negative_slope := o.negative_slope.map (vt (permIndexList tObj.perm)) }) else (((moveOutEdges ((g.remove_edge est.src t).remove_edges_from [etu]) u t (fun a => { a with src_out_port := 0 })).add_edge est.src u { est.attr with dst_in_port := etu.attr.dst_in_port }).add_edge u t { src_out_port := 0, dst_in_port := 0, tensor := { value := ((((g.remove_edge est.src t).remove_edges_from [etu]).sorted_out_edges u).foldl (fun acc e => match e.attr.tensor.value with | some v => some (vt (permIndexList tObj.perm) v) | none => acc) none) } }))) := hstep
  have hE3p : (moveOutEdges ((g.remove_edge est.src t).remove_edges_from [etu]) u t (fun a => { a with src_out_port := 0 })).edges
      = ((g.remove_edge est.src t).remove_edges_from [etu]).edges.filter (fun e => !(decide (e.src = u))) ++ ns := by
    rw [hmove]
    exact hE3
  have h4e : ((moveOutEdges ((g.remove_edge est.src t).remove_edges_from [etu]) u t (fun a => { a with src_out_port := 0 })).add_edge est.src u { est.attr with dst_in_port := etu.attr.dst_in_port }).edges
      = (moveOutEdges ((g.remove_edge est.src t).remove_edges_from [etu]) u t (fun a => { a with src_out_port := 0 })).edges ++ [⟨est.src, u, nextKey (moveOutEdges ((g.remove_edge est.src t).remove_edges_from [etu]) u t (fun a => { a with src_out_port := 0 })).edges est.src u, { est.attr with dst_in_port := etu.attr.dst_in_port }⟩] := rfl
  have h5e : (((moveOutEdges ((g.remove_edge est.src t).remove_edges_from [etu]) u t (fun a => { a with src_out_port := 0 })).add_edge est.src u { est.attr with dst_in_port := etu.attr.dst_in_port }).add_edge u t { src_out_port := 0, dst_in_port := 0, tensor := { value := ((((g.remove_edge est.src t).remove_edges_from [etu]).sorted_out_edges u).foldl (fun acc e => match e.attr.tensor.value with | some v => some (vt (permIndexList tObj.perm) v) | none => acc) none) } }).edges
      = ((moveOutEdges ((g.remove_edge est.src t).remove_edges_from [etu]) u t (fun a => { a with src_out_port := 0 })).add_edge est.src u { est.attr with dst_in_port := etu.attr.dst_in_port }).edges ++ [⟨u, t, nextKey ((moveOutEdges ((g.remove_edge est.src t).remove_edges_from [etu]) u t (fun a => { a with src_out_port := 0 })).add_edge est.src u { est.attr with dst_in_port := etu.attr.dst_in_port }).edges u t, { src_out_port := 0, dst_in_port := 0, tensor := { value := ((((g.remove_edge est.src t).remove_edges_from [etu]).sorted_out_edges u).foldl (fun acc e => match e.attr.tensor.value with | some v => some (vt (permIndexList tObj.perm) v) | none => acc) none) } }⟩] := rfl
  have pdstu1 : (((g.remove_edge est.src t).remove_edges_from [etu]).edges.filter (fun e => !(decide (e.src = u)))).filter
      (fun e => decide (e.dst = u)) = [] := by
    rw [List.filter_comm, hg2_dstu]
    rfl
  have pdstu2 : ns.filter (fun e => decide (e.dst = u)) = [] := by
    apply List.filter_eq_nil_iff.mpr
    intro x hx
    obtain ⟨_, ep, hep, hxd, _⟩ := hnsmem x hx
    simp [hxd, (hdstf ep hep).2.1]
  have psrcu1 : (((g.remove_edge est.src t).remove_edges_from [etu]).edges.filter (fun e => !(decide (e.src = u)))).filter
      (fun e => decide (e.src = u)) = [] := by
    rw [List.filter_filter]
    apply List.filter_eq_nil_iff.mpr
    intro x _
    simp
  have psrcu2 : ns.filter (fun e => decide (e.src = u)) = [] := by
    apply List.filter_eq_nil_iff.mpr
    intro x hx
    simp [(hnsmem x hx).1, htu]
  have psrct1 : (((g.remove_edge est.src t).remove_edges_from [etu]).edges.filter (fun e => !(decide (e.src = u)))).filter
      (fun e => decide (e.src = t)) = [] := by
    rw [List.filter_comm, hg2_srct]
    rfl
  have psrct2 : ns.filter (fun e => decide (e.src = t)) = ns := by
    apply List.filter_eq_self.mpr
    intro x hx
    simp [(hnsmem x hx).1]
  have hfdstu : ((((moveOutEdges ((g.remove_edge est.src t).remove_edges_from [etu]) u t (fun a => { a with src_out_port := 0 })).add_edge est.src u { est.attr with dst_in_port := etu.attr.dst_in_port }).add_edge u t { src_out_port := 0, dst_in_port := 0, tensor := { value := ((((g.remove_edge est.src t).remove_edges_from [etu]).sorted_out_edges u).foldl (fun acc e => match e.attr.tensor.value with | some v => some (vt (permIndexList tObj.perm) v) | none => acc) none) } }).edges.filter (fun e => decide (e.dst = u))).map Edge.data
      = [(est.src, u, { est.attr with dst_in_port := etu.attr.dst_in_port })] := by
    rw [h5e, List.filter_append, h4e, List.filter_append, hE3p, List.filter_append]
    rw [pdstu1, pdstu2]
    simp [Edge.data, htu]
  have hfsrcu : ((((moveOutEdges ((g.remove_edge est.src t).remove_edges_from [etu]) u t (fun a => { a with src_out_port := 0 })).add_edge est.src u { est.attr with dst_in_port := etu.attr.dst_in_port }).add_edge u t { src_out_port := 0, dst_in_port := 0, tensor := { value := ((((g.remove_edge est.src t).remove_edges_from [etu]).sorted_out_edges u).foldl (fun acc e => match e.attr.tensor.value with | some v => some (vt (permIndexList tObj.perm) v) | none => acc) none) } }).edges.filter (fun e => decide (e.src = u))).map Edge.data
      = [(u, t, { src_out_port := 0, dst_in_port := 0, tensor := { value := ((((g.remove_edge est.src t).remove_edges_from [etu]).sorted_out_edges u).foldl (fun acc e => match e.attr.tensor.value with | some v => some (vt (permIndexList tObj.perm) v) | none => acc) none) } })] := by
    rw [h5e, List.filter_append, h4e, List.filter_append, hE3p, List.filter_append]
    rw [psrcu1, psrcu2]
    simp [Edge.data, hsrcu]
  have hfsrct : ((((moveOutEdges ((g.remove_edge est.src t).remove_edges_from [etu]) u t (fun a => { a with src_out_port := 0 })).add_edge est.src u { est.attr with dst_in_port := etu.attr.dst_in_port }).add_edge u t { src_out_port := 0, dst_in_port := 0, tensor := { value := ((((g.remove_edge est.src t).remove_edges_from [etu]).sorted_out_edges u).foldl (fun acc e => match e.attr.tensor.value with | some v => some (vt (permIndexList tObj.perm) v) | none => acc) none) } }).edges.filter (fun e => decide (e.src = t))).map Edge.data
      = uouts.map (fun e => (t, e.dst, { e.attr with src_out_port := 0 })) := by
    rw [h5e, List.filter_append, h4e, List.filter_append, hE3p, List.filter_append]
    rw [psrct1, psrct2]
    have hne2 : ¬ (u = t) := fun hc => htu hc.symm
    simp only [List.filter_cons, List.filter_nil]
    rw [if_neg (by simpa using hsrct), if_neg (by simpa using hne2)]
    simpa [Edge.data] using hD3
  have hg5out : (((moveOutEdges ((g.remove_edge est.src t).remove_edges_from [etu]) u t (fun a => { a with src_out_port := 0 })).add_edge est.src u { est.attr with dst_in_port := etu.attr.dst_in_port }).add_edge u t { src_out_port := 0, dst_in_port := 0, tensor := { value := ((((g.remove_edge est.src t).remove_edges_from [etu]).sorted_out_edges u).foldl (fun acc e => match e.attr.tensor.value with | some v => some (vt (permIndexList tObj.perm) v) | none => acc) none) } }).output_names = g.output_names := by
    show (moveOutEdges ((g.remove_edge est.src t).remove_edges_from [etu]) u t (fun a => { a with src_out_port := 0 })).output_names = g.output_names
    rw [hmove, hO3, hg2out]
  have hg6out : (if uObj.type = "ArmActivation" ∧ uObj.method = "PRELU" then (((moveOutEdges ((g.remove_edge est.src t).remove_edges_from [etu]) u t (fun a => { a with src_out_port := 0 })).add_edge est.src u { est.attr with dst_in_port := etu.attr.dst_in_port }).add_edge u t { src_out_port := 0, dst_in_port := 0, tensor := { value := ((((g.remove_edge est.src t).remove_edges_from [etu]).sorted_out_edges u).foldl (fun acc e => match e.attr.tensor.value with | some v => some (vt (permIndexList tObj.perm) v) | none => acc) none) } }).update_obj u (fun o => { o with negative_slope := o.negative_slope.map (vt (permIndexList tObj.perm)) }) else (((moveOutEdges ((g.remove_edge est.src t).remove_edges_from [etu]) u t (fun a => { a with src_out_port := 0 })).add_edge est.src u { est.attr with dst_in_port := etu.attr.dst_in_port }).add_edge u t { src_out_port := 0, dst_in_port := 0, tensor := { value := ((((g.remove_edge est.src t).remove_edges_from [etu]).sorted_out_edges u).foldl (fun acc e => match e.attr.tensor.value with | some v => some (vt (permIndexList tObj.perm) v) | none => acc) none) } })).output_names = g.output_names := by
    split
    · exact hg5out
    · exact hg5out
  have hg6edges : (if uObj.type = "ArmActivation" ∧ uObj.method = "PRELU" then (((moveOutEdges ((g.remove_edge est.src t).remove_edges_from [etu]) u t (fun a => { a with src_out_port := 0 })).add_edge est.src u { est.attr with dst_in_port := etu.attr.dst_in_port }).add_edge u t { src_out_port := 0, dst_in_port := 0, tensor := { value := ((((g.remove_edge est.src t).remove_edges_from [etu]).sorted_out_edges u).foldl (fun acc e => match e.attr.tensor.value with | some v => some (vt (permIndexList tObj.perm) v) | none => acc) none) } }).update_obj u (fun o => { o with negative_slope := o.negative_slope.map (vt (permIndexList tObj.perm)) }) else (((moveOutEdges ((g.remove_edge est.src t).remove_edges_from [etu]) u t (fun a => { a with src_out_port := 0 })).add_edge est.src u { est.attr with dst_in_port := etu.attr.dst_in_port }).add_edge u t { src_out_port := 0, dst_in_port := 0, tensor := { value := ((((g.remove_edge est.src t).remove_edges_from [etu]).sorted_out_edges u).foldl (fun acc e => match e.attr.tensor.value with | some v => some (vt (permIndexList tObj.perm) v) | none => acc) none) } })).edges = (((moveOutEdges ((g.remove_edge est.src t).remove_edges_from [etu]) u t (fun a => { a with src_out_port := 0 })).add_edge est.src u { est.attr with dst_in_port := etu.attr.dst_in_port }).add_edge u t { src_out_port := 0, dst_in_port := 0, tensor := { value := ((((g.remove_edge est.src t).remove_edges_from [etu]).sorted_out_edges u).foldl (fun acc e => match e.attr.tensor.value with | some v => some (vt (permIndexList tObj.perm) v) | none => acc) none) } }).edges := by
    split
    · rfl
    · rfl
  rw [hG, hstep2]
  by_cases hmem : u ∈ (if uObj.type = "ArmActivation" ∧ uObj.method = "PRELU" then (((moveOutEdges ((g.remove_edge est.src t).remove_edges_from [etu]) u t (fun a => { a with src_out_port := 0 })).add_edge est.src u { est.attr with dst_in_port := etu.attr.dst_in_port }).add_edge u t { src_out_port := 0, dst_in_port := 0, tensor := { value := ((((g.remove_edge est.src t).remove_edges_from [etu]).sorted_out_edges u).foldl (fun acc e => match e.attr.tensor.value with | some v => some (vt (permIndexList tObj.perm) v) | none => acc) none) } }).update_obj u (fun o => { o with negative_slope := o.negative_slope.map (vt (permIndexList tObj.perm)) }) else (((moveOutEdges ((g.remove_edge est.src t).remove_edges_from [etu]) u t (fun a => { a with src_out_port := 0 })).add_edge est.src u { est.attr with dst_in_port := etu.attr.dst_in_port }).add_edge u t { src_out_port := 0, dst_in_port := 0, tensor := { value := ((((g.remove_edge est.src t).remove_edges_from [etu]).sorted_out_edges u).foldl (fun acc e => match e.attr.tensor.value with | some v => some (vt (permIndexList tObj.perm) v) | none => acc) none) } })).output_names
  · rw [if_pos hmem]
    refine ⟨?_, ⟨{ value := ((((g.remove_edge est.src t).remove_edges_from [etu]).sorted_out_edges u).foldl (fun acc e => match e.attr.tensor.value with | some v => some (vt (permIndexList tObj.perm) v) | none => acc) none) }, ?_⟩, ?_, ?_⟩
    · show (((if uObj.type = "ArmActivation" ∧ uObj.method = "PRELU" then (((moveOutEdges ((g.remove_edge est.src t).remove_edges_from [etu]) u t (fun a => { a with src_out_port := 0 })).add_edge est.src u { est.attr with dst_in_port := etu.attr.dst_in_port }).add_edge u t { src_out_port := 0, dst_in_port := 0, tensor := { value := ((((g.remove_edge est.src t).remove_edges_from [etu]).sorted_out_edges u).foldl (fun acc e => match e.attr.tensor.value with | some v => some (vt (permIndexList tObj.perm) v) | none => acc) none) } }).update_obj u (fun o => { o with negative_slope := o.negative_slope.map (vt (permIndexList tObj.perm)) }) else (((moveOutEdges ((g.remove_edge est.src t).remove_edges_from [etu]) u t (fun a => { a with src_out_port := 0 })).add_edge est.src u { est.attr with dst_in_port := etu.attr.dst_in_port }).add_edge u t { src_out_port := 0, dst_in_port := 0, tensor := { value := ((((g.remove_edge est.src t).remove_edges_from [etu]).sorted_out_edges u).foldl (fun acc e => match e.attr.tensor.value with | some v => some (vt (permIndexList tObj.perm) v) | none => acc) none) } }))).edges.filter (fun e => decide (e.dst = u))).map Edge.data = _
      rw [hg6edges]
      exact hfdstu
    · show (((if uObj.type = "ArmActivation" ∧ uObj.method = "PRELU" then (((moveOutEdges ((g.remove_edge est.src t).remove_edges_from [etu]) u t (fun a => { a with src_out_port := 0 })).add_edge est.src u { est.attr with dst_in_port := etu.attr.dst_in_port }).add_edge u t { src_out_port := 0, dst_in_port := 0, tensor := { value := ((((g.remove_edge est.src t).remove_edges_from [etu]).sorted_out_edges u).foldl (fun acc e => match e.attr.tensor.value with | some v => some (vt (permIndexList tObj.perm) v) | none => acc) none) } }).update_obj u (fun o => { o with negative_slope := o.negative_slope.map (vt (permIndexList tObj.perm)) }) else (((moveOutEdges ((g.remove_edge est.src t).remove_edges_from [etu]) u t (fun a => { a with src_out_port := 0 })).add_edge est.src u { est.attr with dst_in_port := etu.attr.dst_in_port }).add_edge u t { src_out_port := 0, dst_in_port := 0, tensor := { value := ((((g.remove_edge est.src t).remove_edges_from [etu]).sorted_out_edges u).foldl (fun acc e => match e.attr.tensor.value with | some v => some (vt (permIndexList tObj.perm) v) | none => acc) none) } }))).edges.filter (fun e => decide (e.src = u))).map Edge.data = _
      rw [hg6edges]
      exact hfsrcu
    · show (((if uObj.type = "ArmActivation" ∧ uObj.method = "PRELU" then (((moveOutEdges ((g.remove_edge est.src t).remove_edges_from [etu]) u t (fun a => { a with src_out_port := 0 })).add_edge est.src u { est.attr with dst_in_port := etu.attr.dst_in_port }).add_edge u t { src_out_port := 0, dst_in_port := 0, tensor := { value := ((((g.remove_edge est.src t).remove_edges_from [etu]).sorted_out_edges u).foldl (fun acc e => match e.attr.tensor.value with | some v => some (vt (permIndexList tObj.perm) v) | none => acc) none) } }).update_obj u (fun o => { o with negative_slope := o.negative_slope.map (vt (permIndexList tObj.perm)) }) else (((moveOutEdges ((g.remove_edge est.src t).remove_edges_from [etu]) u t (fun a => { a with src_out_port := 0 })).add_edge est.src u { est.attr with dst_in_port := etu.attr.dst_in_port }).add_edge u t { src_out_port := 0, dst_in_port := 0, tensor := { value := ((((g.remove_edge est.src t).remove_edges_from [etu]).sorted_out_edges u).foldl (fun acc e => match e.attr.tensor.value with | some v => some (vt (permIndexList tObj.perm) v) | none => acc) none) } }))).edges.filter (fun e => decide (e.src = t))).map Edge.data = _
      rw [hg6edges]
      exact hfsrct
    · show listReplaceFirst (if uObj.type = "ArmActivation" ∧ uObj.method = "PRELU" then (((moveOutEdges ((g.remove_edge est.src t).remove_edges_from [etu]) u t (fun a => { a with src_out_port := 0 })).add_edge est.src u { est.attr with dst_in_port := etu.attr.dst_in_port }).add_edge u t { src_out_port := 0, dst_in_port := 0, tensor := { value := ((((g.remove_edge est.src t).remove_edges_from [etu]).sorted_out_edges u).foldl (fun acc e => match e.attr.tensor.value with | some v => some (vt (permIndexList tObj.perm) v) | none => acc) none) } }).update_obj u (fun o => { o with negative_slope := o.negative_slope.map (vt (permIndexList tObj.perm)) }) else (((moveOutEdges ((g.remove_edge est.src t).remove_edges_from [etu]) u t (fun a => { a with src_out_port := 0 })).add_edge est.src u { est.attr with dst_in_port := etu.attr.dst_in_port }).add_edge u t { src_out_port := 0, dst_in_port := 0, tensor := { value := ((((g.remove_edge est.src t).remove_edges_from [etu]).sorted_out_edges u).foldl (fun acc e => match e.attr.tensor.value with | some v => some (vt (permIndexList tObj.perm) v) | none => acc) none) } })).output_names u t = _
      rw [hg6out]
  · rw [if_neg hmem]
    rw [hg6out] at hmem
    refine ⟨?_, ⟨{ value := ((((g.remove_edge est.src t).remove_edges_from [etu]).sorted_out_edges u).foldl (fun acc e => match e.attr.tensor.value with | some v => some (vt (permIndexList tObj.perm) v) | none => acc) none) }, ?_⟩, ?_, ?_⟩
    · rw [hg6edges]
      exact hfdstu
    · rw [hg6edges]
      exact hfsrcu
    · rw [hg6edges]
      exact hfsrct
    · rw [hg6out]
      exact (listReplaceFirst_of_not_mem _ _ _ hmem).symm

/-- Witness for C9: on the concrete In-Transpose-Abs-Out graph the
sinking rewrite replaces the Abs occurrence in output_names by the
transpose name. -/
theorem sink_single_transpose_moves_witness :
    (sink_single_transpose vtId ["ArmAbs"] exSinkGraph).output_names
      = listReplaceFirst exSinkGraph.output_names ("U") ("T") :=
  (sink_single_transpose_moves vtId ["ArmAbs"] exSinkGraph ("T") ("U")
    { type := "ArmTranspose", perm := [0, 1] }
    { type := "ArmAbs", num_in_ports := 1 }
    { src := "In", dst := "T" }
    { src := "T", dst := "U",
      attr := { dst_in_port := 0, tensor := { shape := some [some 2] } } }
    [{ src := "U", dst := "D" }] [some 2]
    (by decide) (by decide) (by decide) (by decide) (by decide) (by decide)
    (by decide) (by decide) (by decide) (by decide) (by decide) (by decide)
    (by decide) (by decide) (by decide) (by decide) (by decide)
    (by decide)).2.2.2

end Compass
